import Mathlib

/-!
# In-memory ToDo service: a shallow embedding

Two Go programs serve the same CRUD operations over one package-level slice
`todos`: `stdlib/main.go` (net/http) and `fiber/main.go` (gofiber).  Each
handler is embedded as a function from the current slice (and the parts of the
request it reads) to the response and the next slice.

Library behaviour the handlers rely on is embedded from the Go documentation:

* `strconv.Atoi` (64-bit `int`): optional sign, then one or more decimal
  digits, the value in the `int` range;
* `encoding/json` decoding into a `ToDo`: a syntax error is reported before
  anything is stored; otherwise the object's members are stored one by one, in
  order, a member whose value does not fit the field is skipped and makes the
  call return an `UnmarshalTypeError` after the remaining members have been
  stored; `null` stores nothing; keys match field names case-insensitively;
* the two dispatchers: net/http's mux hands every path under `/todos/` to
  `todoHandler`; fiber's router (default configuration) trims the trailing
  slashes of the path before matching, binds `:id` to a single non-empty path
  element and answers 404 or 405 itself when no route of the method matches;
* the two body readers: `json.Decoder.Decode` ignores the content type and
  reads the first JSON value of the body, fiber's `BodyParser` picks the parser
  by the content type and hands the whole body to `json.Unmarshal`.
-/

namespace GoPractice

/-! ## Data model -/

/-- The `ToDo` struct of both programs. -/
structure ToDo where
  ID : Int
  Title : String
  Done : Bool
deriving DecidableEq, Repr

/-- A member value of a JSON object, as far as decoding into a `ToDo` field
can tell values apart: `frac` is a number literal that is not in integer
syntax, `composite` an array or an object. -/
inductive JValue where
  | null
  | bool (b : Bool)
  | int (n : Int)
  | frac
  | str (s : String)
  | composite
deriving DecidableEq, Repr

/-- The JSON value a request body holds: `malformed` is a body that holds none
(empty, or not well-formed JSON), which every decoder rejects before storing
anything; `nonObject` is a well-formed top-level array, string, number or
boolean.  In a `Request` the body is this value and nothing else, sent with
`Content-Type: application/json`; `Sent` covers the other ways to send it. -/
inductive ReqBody where
  | malformed
  | null
  | nonObject
  | object (fields : List (String × JValue))
deriving DecidableEq, Repr

/-- What a response carries: plain text, one record as JSON, the array of
records as JSON, the JSON object with the single key "error", or nothing. -/
inductive Payload where
  | text (s : String)
  | todo (t : ToDo)
  | todos (ts : List ToDo)
  | error (msg : String)
  | none
deriving DecidableEq, Repr

/-- An HTTP response: status code and payload. -/
structure Response where
  status : Nat
  body : Payload
deriving DecidableEq, Repr

/-! ## Library functions used by the handlers -/

/-- Smallest value of Go's 64-bit `int`. -/
def minInt : Int := -9223372036854775808

/-- Largest value of Go's 64-bit `int`. -/
def maxInt : Int := 9223372036854775807

/-- Whether an integer is representable as a Go `int`. -/
def fitsInt (n : Int) : Bool := decide (minInt ≤ n) && decide (n ≤ maxInt)

/-- Value of a run of decimal digits, `none` when a character is not a digit. -/
def digitsValue : List Char → Nat → Option Nat
  | [], acc => some acc
  | c :: cs, acc =>
    if c.isDigit then digitsValue cs (acc * 10 + (c.toNat - 48)) else none

/-- Go's `strconv.Atoi`: `none` stands for a returned error. -/
def Atoi (s : String) : Option Int :=
  let signed : Bool × List Char :=
    match s.data with
    | '-' :: r => (true, r)
    | '+' :: r => (false, r)
    | r => (false, r)
  if signed.2.isEmpty then none
  else
    match digitsValue signed.2 0 with
    | Option.none => none
    | some n =>
      let v : Int := if signed.1 then -(n : Int) else (n : Int)
      if fitsInt v then some v else none

/-- Go's `strings.TrimPrefix`. -/
def TrimPrefix (s pre : String) : String :=
  if pre.data.isPrefixOf s.data then String.mk (s.data.drop pre.data.length) else s

/-- Whether an object key selects the struct field with JSON name `name`
(lower case): exact match or equal under ASCII case folding. -/
def keyMatches (name key : String) : Bool :=
  key.data.map Char.toLower == name.data

/-- Store a member value into the `int` field `ID`.  The flag is `true` when
the value does not fit the field, which is then left as it was. -/
def storeID (v : ToDo) : JValue → ToDo × Bool
  | .null => (v, false)
  | .int n => if fitsInt n then ({ v with ID := n }, false) else (v, true)
  | _ => (v, true)

/-- Store a member value into the `string` field `Title`. -/
def storeTitle (v : ToDo) : JValue → ToDo × Bool
  | .null => (v, false)
  | .str s => ({ v with Title := s }, false)
  | _ => (v, true)

/-- Store a member value into the `bool` field `Done`. -/
def storeDone (v : ToDo) : JValue → ToDo × Bool
  | .null => (v, false)
  | .bool b => ({ v with Done := b }, false)
  | _ => (v, true)

/-- Store one object member into the target: the key selects the field, a key
that selects none is ignored. -/
def storeMember (v : ToDo) (key : String) (val : JValue) : ToDo × Bool :=
  if keyMatches "id" key then storeID v val
  else if keyMatches "title" key then storeTitle v val
  else if keyMatches "done" key then storeDone v val
  else (v, false)

/-- Store the members of an object in order; the flag records whether any
member was skipped for a type mismatch. -/
def storeObject : List (String × JValue) → ToDo → ToDo × Bool
  | [], v => (v, false)
  | (k, x) :: rest, v =>
    ((storeObject rest (storeMember v k x).1).1,
      (storeMember v k x).2 || (storeObject rest (storeMember v k x).1).2)

/-- Decoding a request body over an existing `ToDo` (`Decode(&v)`,
`BodyParser(&v)`): the target after the call, and whether the call returned an
error. -/
def Decode (body : ReqBody) (v : ToDo) : ToDo × Bool :=
  match body with
  | .malformed => (v, true)
  | .null => (v, false)
  | .nonObject => (v, true)
  | .object fields => storeObject fields v

/-- The loop `for i, todo := range todos { if todo.ID == id { ... return } }`:
index and value at the first iteration whose test succeeds. -/
def rangeFind (id : Int) : List ToDo → Option (Nat × ToDo)
  | [] => none
  | todo :: rest =>
    if todo.ID = id then some (0, todo)
    else (rangeFind id rest).map fun p => (p.1 + 1, p.2)

/-- The zero value of `ToDo` (`var todo ToDo`, `new(ToDo)`). -/
def zeroToDo : ToDo := ⟨0, "", false⟩

/-! ## Standard-library variant (`stdlib/main.go`) -/

namespace Stdlib

/-- Body written by `http.Error(w, msg, code)`. -/
def httpError (msg : String) (code : Nat) : Response := ⟨code, .text (msg ++ "\n")⟩

/-- Handler `helloHandler`. -/
def helloHandler (todos : List ToDo) : Response × List ToDo :=
  (⟨200, .text "Hello, World!\n"⟩, todos)

/-- Handler `getTodos`. -/
def getTodos (todos : List ToDo) : Response × List ToDo :=
  (⟨200, .todos todos⟩, todos)

/-- Handler `createTodo`. -/
def createTodo (body : ReqBody) (todos : List ToDo) : Response × List ToDo :=
  match Decode body zeroToDo with
  | (_, true) => (httpError "Cannot parse JSON" 400, todos)
  | (todo, false) =>
    (⟨201, .todo { todo with ID := (todos.length : Int) + 1 }⟩,
      todos ++ [{ todo with ID := (todos.length : Int) + 1 }])

/-- Handler `getTodoByID`. -/
def getTodoByID (id : Int) (todos : List ToDo) : Response × List ToDo :=
  match rangeFind id todos with
  | some (_, todo) => (⟨200, .todo todo⟩, todos)
  | Option.none => (httpError "ToDo not found" 404, todos)

/-- Handler `updateTodoByID`: the body is decoded into `todos[i]` itself. -/
def updateTodoByID (body : ReqBody) (id : Int) (todos : List ToDo) :
    Response × List ToDo :=
  match rangeFind id todos with
  | some (i, cur) =>
    match Decode body cur with
    | (stored, true) => (httpError "Cannot parse JSON" 400, todos.set i stored)
    | (stored, false) =>
      (⟨200, .todo { stored with ID := id }⟩, todos.set i { stored with ID := id })
  | Option.none => (httpError "ToDo not found" 404, todos)

/-- Handler `deleteTodoByID`. -/
def deleteTodoByID (id : Int) (todos : List ToDo) : Response × List ToDo :=
  match rangeFind id todos with
  | some (i, _) => (⟨204, .none⟩, todos.take i ++ todos.drop (i + 1))
  | Option.none => (httpError "ToDo not found" 404, todos)

/-- Handler `todosHandler`, registered for the path `/todos`. -/
def todosHandler (method : String) (body : ReqBody) (todos : List ToDo) :
    Response × List ToDo :=
  if method = "GET" then getTodos todos
  else if method = "POST" then createTodo body todos
  else (httpError "Method not allowed" 405, todos)

/-- Handler `todoHandler`, registered for the paths under `/todos/`. -/
def todoHandler (method path : String) (body : ReqBody) (todos : List ToDo) :
    Response × List ToDo :=
  match Atoi (TrimPrefix path "/todos/") with
  | Option.none => (httpError "Invalid ID" 400, todos)
  | some id =>
    if method = "GET" then getTodoByID id todos
    else if method = "PUT" then updateTodoByID body id todos
    else if method = "DELETE" then deleteTodoByID id todos
    else (httpError "Method not allowed" 405, todos)

end Stdlib

/-! ## Framework variant (`fiber/main.go`) -/

namespace Fiber

/-- Response of `c.Status(code).JSON(fiber.Map{"error": msg})`. -/
def jsonError (code : Nat) (msg : String) : Response := ⟨code, .error msg⟩

/-- Route `GET /`. -/
def getRoot (todos : List ToDo) : Response × List ToDo :=
  (⟨200, .text "Hello, World!"⟩, todos)

/-- Route `POST /todos`. -/
def postTodos (body : ReqBody) (todos : List ToDo) : Response × List ToDo :=
  match Decode body zeroToDo with
  | (_, true) => (jsonError 400 "cannot parse JSON", todos)
  | (todo, false) =>
    (⟨201, .todo { todo with ID := (todos.length : Int) + 1 }⟩,
      todos ++ [{ todo with ID := (todos.length : Int) + 1 }])

/-- Route `GET /todos`. -/
def getTodos (todos : List ToDo) : Response × List ToDo :=
  (⟨200, .todos todos⟩, todos)

/-- Route `GET /todos/:id`; `param` is the text bound to `:id`. -/
def getTodo (param : String) (todos : List ToDo) : Response × List ToDo :=
  match Atoi param with
  | Option.none => (jsonError 400 "invalid ID", todos)
  | some id =>
    match rangeFind id todos with
    | some (_, todo) => (⟨200, .todo todo⟩, todos)
    | Option.none => (jsonError 404 "ToDo not found", todos)

/-- Route `PUT /todos/:id`: the body is parsed into `todos[i]` itself. -/
def putTodo (param : String) (body : ReqBody) (todos : List ToDo) :
    Response × List ToDo :=
  match Atoi param with
  | Option.none => (jsonError 400 "invalid ID", todos)
  | some id =>
    match rangeFind id todos with
    | some (i, cur) =>
      match Decode body cur with
      | (stored, true) => (jsonError 400 "cannot parse JSON", todos.set i stored)
      | (stored, false) =>
        (⟨200, .todo { stored with ID := id }⟩, todos.set i { stored with ID := id })
    | Option.none => (jsonError 404 "ToDo not found", todos)

/-- Route `DELETE /todos/:id`; a 204 response goes out without a body. -/
def deleteTodo (param : String) (todos : List ToDo) : Response × List ToDo :=
  match Atoi param with
  | Option.none => (jsonError 400 "invalid ID", todos)
  | some id =>
    match rangeFind id todos with
    | some (i, _) => (⟨204, .none⟩, todos.take i ++ todos.drop (i + 1))
    | Option.none => (jsonError 404 "ToDo not found", todos)

end Fiber

/-! ## Requests and runs -/

/-- The six operations both programs route, with the text of the id segment
(the request path after `/todos/`, free of percent escapes) and the body where
the operation has one. -/
inductive Request where
  | root
  | list
  | create (body : ReqBody)
  | get (segment : String)
  | update (segment : String) (body : ReqBody)
  | delete (segment : String)
deriving DecidableEq, Repr

/-- Dispatch of `stdlib/main.go`: the handler `main` registers for the path
(`/`, `/todos`, `/todos/<segment>`), called with the request's method.  A
request without a body carries the empty body, which no decoder accepts.  The
mux's own answers to paths that are not in canonical form are not covered. -/
def Stdlib.serve (r : Request) (todos : List ToDo) : Response × List ToDo :=
  match r with
  | .root => Stdlib.helloHandler todos
  | .list => Stdlib.todosHandler "GET" .malformed todos
  | .create body => Stdlib.todosHandler "POST" body todos
  | .get seg => Stdlib.todoHandler "GET" ("/todos/" ++ seg) .malformed todos
  | .update seg body => Stdlib.todoHandler "PUT" ("/todos/" ++ seg) body todos
  | .delete seg => Stdlib.todoHandler "DELETE" ("/todos/" ++ seg) .malformed todos

/-- A text without its trailing slashes. -/
def trimSlashes (cs : List Char) : List Char :=
  (cs.reverse.dropWhile fun c => c == '/').reverse

/-- Whether a segment text is a single path element: not empty, no slash. -/
def singleSegment (seg : String) : Bool :=
  !seg.data.isEmpty && !seg.data.contains '/'

/-- Where fiber's router sends the path `/todos/<segment>`. -/
inductive Fiber.Route where
  | collection
  | item (param : String)
  | unmatched
deriving DecidableEq, Repr

/-- Route matching of fiber for the path `/todos/<segment>` (routing neither
strict nor case sensitive, as `fiber.New()` sets it up): the trailing slashes of
the path are trimmed; what is left is `/todos`, or `/todos/` followed by one
non-empty element without a slash, which is bound to `:id`, or a path that no
registered route matches. -/
def Fiber.routeOf (seg : String) : Fiber.Route :=
  if (trimSlashes seg.data).isEmpty then .collection
  else if (trimSlashes seg.data).contains '/' then .unmatched
  else .item (String.mk (trimSlashes seg.data))

/-- The router's answer when no route of the method matches the path but a
route of another method does. -/
def Fiber.methodNotAllowed : Response := ⟨405, .text "Method Not Allowed"⟩

/-- The router's answer when no route matches the path. -/
def Fiber.cannot (method path : String) : Response :=
  ⟨404, .text ("Cannot " ++ method ++ " " ++ path)⟩

/-- Dispatch of `fiber/main.go`: the route `main` registers for the method and
the path, or the router's own answer when there is none.  `/todos` has routes
for GET and POST only, `/todos/:id` for GET, PUT and DELETE. -/
def Fiber.serve (r : Request) (todos : List ToDo) : Response × List ToDo :=
  match r with
  | .root => Fiber.getRoot todos
  | .list => Fiber.getTodos todos
  | .create body => Fiber.postTodos body todos
  | .get seg =>
    match Fiber.routeOf seg with
    | .collection => Fiber.getTodos todos
    | .item param => Fiber.getTodo param todos
    | .unmatched => (Fiber.cannot "GET" ("/todos/" ++ seg), todos)
  | .update seg body =>
    match Fiber.routeOf seg with
    | .collection => (Fiber.methodNotAllowed, todos)
    | .item param => Fiber.putTodo param body todos
    | .unmatched => (Fiber.cannot "PUT" ("/todos/" ++ seg), todos)
  | .delete seg =>
    match Fiber.routeOf seg with
    | .collection => (Fiber.methodNotAllowed, todos)
    | .item param => Fiber.deleteTodo param todos
    | .unmatched => (Fiber.cannot "DELETE" ("/todos/" ++ seg), todos)

/-- Serve a list of requests in order; the responses come back in the same
order, with the final collection. -/
def run (serve : Request → List ToDo → Response × List ToDo) :
    List Request → List ToDo → List Response × List ToDo
  | [], todos => ([], todos)
  | r :: rs, todos =>
    ((serve r todos).1 :: (run serve rs (serve r todos).2).1,
      (run serve rs (serve r todos).2).2)

/-! ## Requests as sent -/

/-- Whether a segment text is a single path element written without percent
escapes, so that the decoded path net/http hands to the handler and the raw
path fiber matches have the same text after `/todos/`. -/
def plainSegment (seg : String) : Bool :=
  singleSegment seg && !seg.data.contains '%'

/-- Whether the id segment of a request, if it has one, is a single path
element without percent escapes. -/
def segmentOk : Request → Bool
  | .get seg => plainSegment seg
  | .update seg _ => plainSegment seg
  | .delete seg => plainSegment seg
  | _ => true

/-- The members of a body: those of a top-level object, none otherwise. -/
def members : ReqBody → List (String × JValue)
  | .object fields => fields
  | _ => []

/-- Whether the body has a member whose key selects the field `name`. -/
def hasMember (name : String) (body : ReqBody) : Bool :=
  (members body).any fun m => keyMatches name m.1

/-- The value the body has for the field `name`: that of the last member whose
key selects the field. -/
def memberValue (name : String) : List (String × JValue) → Option JValue
  | [] => none
  | (k, x) :: rest =>
    match memberValue name rest with
    | some y => some y
    | Option.none => if keyMatches name k then some x else none

/-- The non-null value the body gives the field `name`: that of the last
member whose key selects the field and whose value is not `null`. -/
def givenValue (name : String) : List (String × JValue) → Option JValue
  | [] => none
  | (k, x) :: rest =>
    match givenValue name rest with
    | some y => some y
    | Option.none => if keyMatches name k && x != JValue.null then some x else none

/-- Title after a merge: the string the body gives, else the previous title. -/
def mergedTitle (body : ReqBody) (prev : String) : String :=
  match givenValue "title" (members body) with
  | some (.str s) => s
  | _ => prev

/-- Done flag after a merge: the boolean the body gives, else the previous
flag. -/
def mergedDone (body : ReqBody) (prev : Bool) : Bool :=
  match givenValue "done" (members body) with
  | some (.bool b) => b
  | _ => prev

/-- Whether a request is a create. -/
def isCreate : Request → Bool
  | .create _ => true
  | _ => false

/-- The requests of a run in which ids stay in creation order: no delete,
creates whose body decodes without error, and updates whose body either decodes
without error or is rejected before anything is stored. -/
def orderly : Request → Bool
  | .delete _ => false
  | .create body => !(Decode body zeroToDo).2
  | .update _ body => !(Decode body zeroToDo).2 || body == .malformed || body == .nonObject
  | _ => true

/-- The ids 1, 2, ..., n. -/
def idsUpTo (n : Nat) : List Int := (List.range n).map fun k => (k : Int) + 1

/-- Number of records whose id is at most `k`. -/
def countUpTo (k : Nat) (todos : List ToDo) : Nat :=
  todos.countP fun t => decide (t.ID ≤ (k : Int))

/-- Whether a status code is a success code (2xx). -/
def isSuccess (status : Nat) : Bool := decide (200 ≤ status) && decide (status < 300)

/-! ## Auxiliary facts -/

theorem digitsValue_isDigit (cs : List Char) (acc n : Nat)
    (h : digitsValue cs acc = some n) : ∀ c ∈ cs, c.isDigit = true := by
  induction cs generalizing acc with
  | nil => simp
  | cons d ds ih =>
    by_cases hd : d.isDigit = true
    · simp only [digitsValue, hd, if_true] at h
      intro c hc
      rcases List.mem_cons.1 hc with rfl | hc
      · exact hd
      · exact ih _ h c hc
    · simp [digitsValue, hd] at h

theorem Atoi_shape (s : String) (id : Int) (h : Atoi s = some id) :
    ∃ ds : List Char, ds ≠ [] ∧ (∀ c ∈ ds, c.isDigit = true) ∧
      (s.data = ds ∨ s.data = '-' :: ds ∨ s.data = '+' :: ds) := by
  unfold Atoi at h
  simp only at h
  generalize hsg : (match s.data with
    | '-' :: r => (true, r)
    | '+' :: r => (false, r)
    | r => (false, r)) = signed at h
  have hshape : s.data = signed.2 ∨ s.data = '-' :: signed.2 ∨ s.data = '+' :: signed.2 := by
    rw [← hsg]
    split
    · next r hr => right; left; exact hr
    · next r hr => right; right; exact hr
    · left; rfl
  by_cases hem : signed.2.isEmpty = true
  · simp [hem] at h
  · simp only [hem] at h
    cases hdv : digitsValue signed.2 0 with
    | none => simp [hdv] at h
    | some n =>
      refine ⟨signed.2, ?_, digitsValue_isDigit _ _ _ hdv, hshape⟩
      intro hnil
      exact hem (by simp [hnil])

theorem not_contains_iff (ch : Char) (cs : List Char) :
    cs.contains ch = false ↔ ∀ c ∈ cs, c ≠ ch := by
  induction cs with
  | nil => simp
  | cons d ds ih =>
    rw [List.contains_cons, Bool.or_eq_false_iff, ih, beq_eq_false_iff_ne]
    constructor
    · rintro ⟨h1, h2⟩ c hc
      rcases List.mem_cons.1 hc with rfl | hc
      · exact fun e => h1 e.symm
      · exact h2 c hc
    · intro h
      exact ⟨fun e => h d (List.mem_cons_self _ _) e.symm,
        fun c hc => h c (List.mem_cons_of_mem _ hc)⟩

theorem no_slash_iff (cs : List Char) :
    cs.contains '/' = false ↔ ∀ c ∈ cs, c ≠ '/' :=
  not_contains_iff '/' cs

theorem Atoi_chars (s : String) (id : Int) (h : Atoi s = some id) :
    s.data ≠ [] ∧ ∀ c ∈ s.data, c.isDigit = true ∨ c = '-' ∨ c = '+' := by
  obtain ⟨ds, hne, hdig, hshape⟩ := Atoi_shape s id h
  rcases hshape with hs | hs | hs
  · rw [hs]; exact ⟨hne, fun c hc => Or.inl (hdig c hc)⟩
  · rw [hs]
    refine ⟨List.cons_ne_nil _ _, ?_⟩
    intro c hc
    rcases List.mem_cons.1 hc with rfl | hc
    · exact Or.inr (Or.inl rfl)
    · exact Or.inl (hdig c hc)
  · rw [hs]
    refine ⟨List.cons_ne_nil _ _, ?_⟩
    intro c hc
    rcases List.mem_cons.1 hc with rfl | hc
    · exact Or.inr (Or.inr rfl)
    · exact Or.inl (hdig c hc)

theorem Atoi_singleSegment (s : String) (id : Int) (h : Atoi s = some id) :
    singleSegment s = true := by
  obtain ⟨hne, hchars⟩ := Atoi_chars s id h
  have hslash : ∀ c ∈ s.data, c ≠ '/' := by
    intro c hc hcs
    rcases hchars c hc with hd | hd | hd
    · rw [hcs] at hd; exact absurd hd (by decide)
    · rw [hcs] at hd; exact absurd hd (by decide)
    · rw [hcs] at hd; exact absurd hd (by decide)
  unfold singleSegment
  rw [(no_slash_iff s.data).2 hslash]
  cases hd : s.data with
  | nil => exact absurd hd hne
  | cons d rest => rfl

theorem Atoi_plainSegment (s : String) (id : Int) (h : Atoi s = some id) :
    plainSegment s = true := by
  obtain ⟨_, hchars⟩ := Atoi_chars s id h
  have hpct : ∀ c ∈ s.data, c ≠ '%' := by
    intro c hc hcs
    rcases hchars c hc with hd | hd | hd
    · rw [hcs] at hd; exact absurd hd (by decide)
    · rw [hcs] at hd; exact absurd hd (by decide)
    · rw [hcs] at hd; exact absurd hd (by decide)
  unfold plainSegment
  rw [Atoi_singleSegment s id h, (not_contains_iff '%' s.data).2 hpct]
  rfl

theorem plain_single (seg : String) (h : plainSegment seg = true) :
    singleSegment seg = true := by
  unfold plainSegment at h
  rw [Bool.and_eq_true] at h
  exact h.1

theorem trimSlashes_of_no_slash (cs : List Char) (h : cs.contains '/' = false) :
    trimSlashes cs = cs := by
  unfold trimSlashes
  cases hrev : cs.reverse with
  | nil =>
    have hcs : cs = [] := List.reverse_eq_nil_iff.1 hrev
    rw [hcs]
    rfl
  | cons d rest =>
    have hd : d ≠ '/' :=
      (no_slash_iff cs).1 h d (List.mem_reverse.1 (by rw [hrev]; exact List.mem_cons_self _ _))
    have hdrop : (d :: rest).dropWhile (fun c => c == '/') = d :: rest := by
      rw [List.dropWhile_cons_of_neg]
      rw [beq_iff_eq]
      exact hd
    rw [hdrop, ← hrev, List.reverse_reverse]

theorem routeOf_single (seg : String) (h : singleSegment seg = true) :
    Fiber.routeOf seg = .item seg := by
  unfold singleSegment at h
  simp only [Bool.and_eq_true, Bool.not_eq_true'] at h
  unfold Fiber.routeOf
  rw [trimSlashes_of_no_slash seg.data h.2, h.1, h.2]
  rfl

theorem routeOf_of_Atoi (seg : String) (id : Int) (h : Atoi seg = some id) :
    Fiber.routeOf seg = .item seg :=
  routeOf_single seg (Atoi_singleSegment seg id h)

theorem TrimPrefix_append (pre seg : String) : TrimPrefix (pre ++ seg) pre = seg := by
  unfold TrimPrefix
  have h : pre.data.isPrefixOf (pre ++ seg).data = true := by
    rw [String.data_append, List.isPrefixOf_iff_prefix]
    exact List.prefix_append _ _
  rw [if_pos h, String.data_append, List.drop_left]

theorem rangeFind_eq_none (id : Int) (l : List ToDo) :
    rangeFind id l = none ↔ ∀ x ∈ l, x.ID ≠ id := by
  induction l with
  | nil => simp [rangeFind]
  | cons t ts ih =>
    by_cases h : t.ID = id
    · simp [rangeFind, h]
    · simp [rangeFind, h, ih]

theorem rangeFind_split (id : Int) (pre : List ToDo) (r : ToDo) (post : List ToDo)
    (hr : r.ID = id) (hpre : ∀ x ∈ pre, x.ID ≠ id) :
    rangeFind id (pre ++ r :: post) = some (pre.length, r) := by
  induction pre with
  | nil => simp [rangeFind, hr]
  | cons t ts ih =>
    have ht : t.ID ≠ id := hpre t (List.mem_cons_self _ _)
    have hts : ∀ x ∈ ts, x.ID ≠ id := fun x hx => hpre x (List.mem_cons_of_mem _ hx)
    simp [rangeFind, ht, ih hts]

theorem rangeFind_some (id : Int) (l : List ToDo) (i : Nat) (r : ToDo)
    (h : rangeFind id l = some (i, r)) :
    ∃ pre post, l = pre ++ r :: post ∧ pre.length = i ∧ r.ID = id ∧
      ∀ x ∈ pre, x.ID ≠ id := by
  induction l generalizing i with
  | nil => simp [rangeFind] at h
  | cons t ts ih =>
    by_cases ht : t.ID = id
    · simp [rangeFind, ht] at h
      obtain ⟨rfl, rfl⟩ := h
      exact ⟨[], ts, rfl, rfl, ht, by simp⟩
    · simp [rangeFind, ht] at h
      obtain ⟨j, hj, rfl⟩ := h
      obtain ⟨pre, post, hl, hlen, hid, hpre⟩ := ih j hj
      refine ⟨t :: pre, post, by simp [hl], by simp [hlen], hid, ?_⟩
      intro x hx
      rcases List.mem_cons.1 hx with rfl | hx
      · exact ht
      · exact hpre x hx

theorem exists_first (id : Int) (l : List ToDo) (h : ∃ x ∈ l, x.ID = id) :
    ∃ pre r post, l = pre ++ r :: post ∧ r.ID = id ∧ ∀ x ∈ pre, x.ID ≠ id := by
  cases hf : rangeFind id l with
  | none =>
    obtain ⟨x, hx, hxid⟩ := h
    exact absurd hxid ((rangeFind_eq_none id l).1 hf x hx)
  | some p =>
    obtain ⟨pre, post, hl, _, hid, hpre⟩ := rangeFind_some id l p.1 p.2 hf
    exact ⟨pre, p.2, post, hl, hid, hpre⟩

theorem serve_get_eq (seg : String) (id : Int) (c : List ToDo) (h : Atoi seg = some id) :
    Stdlib.serve (.get seg) c = Stdlib.getTodoByID id c ∧
    Fiber.serve (.get seg) c =
      (match rangeFind id c with
        | some (_, todo) => (⟨200, .todo todo⟩, c)
        | Option.none => (Fiber.jsonError 404 "ToDo not found", c)) := by
  simp [Stdlib.serve, Stdlib.todoHandler, Fiber.serve, Fiber.getTodo, TrimPrefix_append, h,
    routeOf_of_Atoi seg id h]

theorem serve_update_eq (seg : String) (id : Int) (body : ReqBody) (c : List ToDo)
    (h : Atoi seg = some id) :
    Stdlib.serve (.update seg body) c = Stdlib.updateTodoByID body id c ∧
    Fiber.serve (.update seg body) c =
      (match rangeFind id c with
        | some (i, cur) =>
          (match Decode body cur with
            | (stored, true) => (Fiber.jsonError 400 "cannot parse JSON", c.set i stored)
            | (stored, false) =>
              (⟨200, .todo { stored with ID := id }⟩, c.set i { stored with ID := id }))
        | Option.none => (Fiber.jsonError 404 "ToDo not found", c)) := by
  simp [Stdlib.serve, Stdlib.todoHandler, Fiber.serve, Fiber.putTodo, TrimPrefix_append, h,
    routeOf_of_Atoi seg id h]

theorem serve_delete_eq (seg : String) (id : Int) (c : List ToDo) (h : Atoi seg = some id) :
    Stdlib.serve (.delete seg) c = Stdlib.deleteTodoByID id c ∧
    Fiber.serve (.delete seg) c =
      (match rangeFind id c with
        | some (i, _) => (⟨204, .none⟩, c.take i ++ c.drop (i + 1))
        | Option.none => (Fiber.jsonError 404 "ToDo not found", c)) := by
  simp [Stdlib.serve, Stdlib.todoHandler, Fiber.serve, Fiber.deleteTodo, TrimPrefix_append, h,
    routeOf_of_Atoi seg id h]

theorem fiber_get_cases (seg : String) (c : List ToDo) :
    (Fiber.routeOf seg = .collection ∧ Fiber.serve (.get seg) c = Fiber.getTodos c) ∨
    (∃ p, Fiber.routeOf seg = .item p ∧ Fiber.serve (.get seg) c = Fiber.getTodo p c) ∨
    (Fiber.routeOf seg = .unmatched ∧
      Fiber.serve (.get seg) c = (Fiber.cannot "GET" ("/todos/" ++ seg), c)) := by
  cases h : Fiber.routeOf seg with
  | collection => left; exact ⟨rfl, by simp [Fiber.serve, h]⟩
  | item p => right; left; exact ⟨p, rfl, by simp [Fiber.serve, h]⟩
  | unmatched => right; right; exact ⟨rfl, by simp [Fiber.serve, h]⟩

theorem fiber_update_cases (seg : String) (body : ReqBody) (c : List ToDo) :
    (Fiber.routeOf seg = .collection ∧
      Fiber.serve (.update seg body) c = (Fiber.methodNotAllowed, c)) ∨
    (∃ p, Fiber.routeOf seg = .item p ∧
      Fiber.serve (.update seg body) c = Fiber.putTodo p body c) ∨
    (Fiber.routeOf seg = .unmatched ∧
      Fiber.serve (.update seg body) c = (Fiber.cannot "PUT" ("/todos/" ++ seg), c)) := by
  cases h : Fiber.routeOf seg with
  | collection => left; exact ⟨rfl, by simp [Fiber.serve, h]⟩
  | item p => right; left; exact ⟨p, rfl, by simp [Fiber.serve, h]⟩
  | unmatched => right; right; exact ⟨rfl, by simp [Fiber.serve, h]⟩

theorem fiber_delete_cases (seg : String) (c : List ToDo) :
    (Fiber.routeOf seg = .collection ∧
      Fiber.serve (.delete seg) c = (Fiber.methodNotAllowed, c)) ∨
    (∃ p, Fiber.routeOf seg = .item p ∧ Fiber.serve (.delete seg) c = Fiber.deleteTodo p c) ∨
    (Fiber.routeOf seg = .unmatched ∧
      Fiber.serve (.delete seg) c = (Fiber.cannot "DELETE" ("/todos/" ++ seg), c)) := by
  cases h : Fiber.routeOf seg with
  | collection => left; exact ⟨rfl, by simp [Fiber.serve, h]⟩
  | item p => right; left; exact ⟨p, rfl, by simp [Fiber.serve, h]⟩
  | unmatched => right; right; exact ⟨rfl, by simp [Fiber.serve, h]⟩

theorem fiber_getTodo_eq (p : String) (id : Int) (c : List ToDo) (h : Atoi p = some id) :
    Fiber.getTodo p c =
      (match rangeFind id c with
        | some (_, todo) => (⟨200, .todo todo⟩, c)
        | Option.none => (Fiber.jsonError 404 "ToDo not found", c)) := by
  simp [Fiber.getTodo, h]

theorem fiber_putTodo_eq (p : String) (id : Int) (body : ReqBody) (c : List ToDo)
    (h : Atoi p = some id) :
    Fiber.putTodo p body c =
      (match rangeFind id c with
        | some (i, cur) =>
          (match Decode body cur with
            | (stored, true) => (Fiber.jsonError 400 "cannot parse JSON", c.set i stored)
            | (stored, false) =>
              (⟨200, .todo { stored with ID := id }⟩, c.set i { stored with ID := id }))
        | Option.none => (Fiber.jsonError 404 "ToDo not found", c)) := by
  simp [Fiber.putTodo, h]

theorem fiber_deleteTodo_eq (p : String) (id : Int) (c : List ToDo) (h : Atoi p = some id) :
    Fiber.deleteTodo p c =
      (match rangeFind id c with
        | some (i, _) => (⟨204, .none⟩, c.take i ++ c.drop (i + 1))
        | Option.none => (Fiber.jsonError 404 "ToDo not found", c)) := by
  simp [Fiber.deleteTodo, h]

theorem fiber_invalid_id (p : String) (body : ReqBody) (c : List ToDo) (h : Atoi p = none) :
    Fiber.getTodo p c = (Fiber.jsonError 400 "invalid ID", c) ∧
    Fiber.putTodo p body c = (Fiber.jsonError 400 "invalid ID", c) ∧
    Fiber.deleteTodo p c = (Fiber.jsonError 400 "invalid ID", c) := by
  simp [Fiber.getTodo, Fiber.putTodo, Fiber.deleteTodo, h]

theorem fiber_getTodo_frame (p : String) (c : List ToDo) : (Fiber.getTodo p c).2 = c := by
  cases hA : Atoi p with
  | none => rw [(fiber_invalid_id p .malformed c hA).1]
  | some id =>
    rw [fiber_getTodo_eq p id c hA]
    cases rangeFind id c <;> rfl

theorem serve_create_ok (body : ReqBody) (c : List ToDo)
    (hbody : (Decode body zeroToDo).2 = false) :
    Stdlib.serve (.create body) c =
      (⟨201, .todo ⟨(c.length : Int) + 1, (Decode body zeroToDo).1.Title,
          (Decode body zeroToDo).1.Done⟩⟩,
        c ++ [⟨(c.length : Int) + 1, (Decode body zeroToDo).1.Title,
          (Decode body zeroToDo).1.Done⟩]) ∧
    Fiber.serve (.create body) c =
      (⟨201, .todo ⟨(c.length : Int) + 1, (Decode body zeroToDo).1.Title,
          (Decode body zeroToDo).1.Done⟩⟩,
        c ++ [⟨(c.length : Int) + 1, (Decode body zeroToDo).1.Title,
          (Decode body zeroToDo).1.Done⟩]) := by
  rcases hd : Decode body zeroToDo with ⟨t, e⟩
  rw [hd] at hbody
  simp only at hbody
  subst hbody
  simp [Stdlib.serve, Stdlib.todosHandler, Stdlib.createTodo, Fiber.serve, Fiber.postTodos, hd]

theorem decode_title_body (s : String) (r : ToDo) :
    Decode (.object [("title", .str s)]) r = (⟨r.ID, s, r.Done⟩, false) := by
  have h1 : keyMatches "id" "title" = false := by decide
  have h2 : keyMatches "title" "title" = true := by decide
  simp [Decode, storeObject, storeMember, storeTitle, h1, h2]

theorem take_drop_split (pre : List ToDo) (r : ToDo) (post : List ToDo) :
    (pre ++ r :: post).take pre.length ++ (pre ++ r :: post).drop (pre.length + 1) =
      pre ++ post := by
  simp

theorem set_split (pre : List ToDo) (r r2 : ToDo) (post : List ToDo) :
    (pre ++ r :: post).set pre.length r2 = pre ++ r2 :: post := by
  simp

theorem keyMatches_unique (a b key : String) (ha : keyMatches a key = true)
    (hb : keyMatches b key = true) : a.data = b.data := by
  unfold keyMatches at ha hb
  rw [beq_iff_eq] at ha hb
  rw [← ha, ← hb]

theorem storeMember_flag (v w : ToDo) (k : String) (x : JValue) :
    (storeMember v k x).2 = (storeMember w k x).2 := by
  unfold storeMember
  split
  · cases x <;> simp [storeID]
    split <;> rfl
  · split
    · cases x <;> simp [storeTitle]
    · split
      · cases x <;> simp [storeDone]
      · rfl

theorem storeObject_flag (fields : List (String × JValue)) (v w : ToDo) :
    (storeObject fields v).2 = (storeObject fields w).2 := by
  induction fields generalizing v w with
  | nil => rfl
  | cons m rest ih =>
    obtain ⟨k, x⟩ := m
    simp only [storeObject]
    rw [storeMember_flag v w k x, ih (storeMember v k x).1 (storeMember w k x).1]

theorem Decode_flag (body : ReqBody) (v w : ToDo) : (Decode body v).2 = (Decode body w).2 := by
  cases body <;> simp [Decode]
  exact storeObject_flag _ v w

theorem storeMember_title (v : ToDo) (k : String) (x : JValue)
    (h : (storeMember v k x).2 = false) :
    (keyMatches "title" k = false ∧ (storeMember v k x).1.Title = v.Title) ∨
    (keyMatches "title" k = true ∧ x = .null ∧ (storeMember v k x).1.Title = v.Title) ∨
    (keyMatches "title" k = true ∧ ∃ s, x = .str s ∧ (storeMember v k x).1.Title = s) := by
  unfold storeMember at h ⊢
  by_cases h1 : keyMatches "id" k = true
  · have h2 : keyMatches "title" k = false := by
      by_contra hc
      have := keyMatches_unique "id" "title" k h1 (by simpa using hc)
      exact absurd this (by decide)
    left
    refine ⟨h2, ?_⟩
    rw [if_pos h1]
    cases x <;> simp [storeID]
    split <;> rfl
  · rw [if_neg h1] at h ⊢
    by_cases h2 : keyMatches "title" k = true
    · rw [if_pos h2] at h ⊢
      cases x <;> simp [storeTitle] at h ⊢
      simp [h2]
    · rw [if_neg h2] at h ⊢
      left
      refine ⟨by simpa using h2, ?_⟩
      split
      · cases x <;> simp [storeDone]
      · rfl

theorem storeMember_done (v : ToDo) (k : String) (x : JValue)
    (h : (storeMember v k x).2 = false) :
    (keyMatches "done" k = false ∧ (storeMember v k x).1.Done = v.Done) ∨
    (keyMatches "done" k = true ∧ x = .null ∧ (storeMember v k x).1.Done = v.Done) ∨
    (keyMatches "done" k = true ∧ ∃ b, x = .bool b ∧ (storeMember v k x).1.Done = b) := by
  unfold storeMember at h ⊢
  by_cases h1 : keyMatches "id" k = true
  · have h2 : keyMatches "done" k = false := by
      by_contra hc
      have := keyMatches_unique "id" "done" k h1 (by simpa using hc)
      exact absurd this (by decide)
    left
    refine ⟨h2, ?_⟩
    rw [if_pos h1]
    cases x <;> simp [storeID]
    split <;> rfl
  · rw [if_neg h1] at h ⊢
    by_cases h2 : keyMatches "title" k = true
    · have h3 : keyMatches "done" k = false := by
        by_contra hc
        have := keyMatches_unique "title" "done" k h2 (by simpa using hc)
        exact absurd this (by decide)
      left
      refine ⟨h3, ?_⟩
      rw [if_pos h2]
      cases x <;> simp [storeTitle]
    · rw [if_neg h2] at h ⊢
      by_cases h3 : keyMatches "done" k = true
      · rw [if_pos h3] at h ⊢
        cases x <;> simp [storeDone] at h ⊢
        simp [h3]
      · rw [if_neg h3] at h ⊢
        left
        exact ⟨by simpa using h3, rfl⟩

theorem storeObject_title (fields : List (String × JValue)) (v : ToDo)
    (h : (storeObject fields v).2 = false) :
    (givenValue "title" fields = none ∧ (storeObject fields v).1.Title = v.Title) ∨
    (∃ s, givenValue "title" fields = some (.str s) ∧ (storeObject fields v).1.Title = s) := by
  induction fields generalizing v with
  | nil => left; exact ⟨rfl, rfl⟩
  | cons m rest ih =>
    obtain ⟨k, x⟩ := m
    simp only [storeObject, Bool.or_eq_false_iff] at h ⊢
    obtain ⟨hm, hrest⟩ := h
    rcases ih (storeMember v k x).1 hrest with ⟨hg, ht⟩ | ⟨s, hg, ht⟩
    · rcases storeMember_title v k x hm with ⟨hk, hv⟩ | ⟨hk, hx, hv⟩ | ⟨hk, s, hx, hv⟩
      · left; exact ⟨by simp [givenValue, hg, hk], by rw [ht, hv]⟩
      · left; exact ⟨by simp [givenValue, hg, hk, hx], by rw [ht, hv]⟩
      · right; exact ⟨s, by simp [givenValue, hg, hk, hx], by rw [ht, hv]⟩
    · right; exact ⟨s, by simp [givenValue, hg], ht⟩

theorem storeObject_done (fields : List (String × JValue)) (v : ToDo)
    (h : (storeObject fields v).2 = false) :
    (givenValue "done" fields = none ∧ (storeObject fields v).1.Done = v.Done) ∨
    (∃ b, givenValue "done" fields = some (.bool b) ∧ (storeObject fields v).1.Done = b) := by
  induction fields generalizing v with
  | nil => left; exact ⟨rfl, rfl⟩
  | cons m rest ih =>
    obtain ⟨k, x⟩ := m
    simp only [storeObject, Bool.or_eq_false_iff] at h ⊢
    obtain ⟨hm, hrest⟩ := h
    rcases ih (storeMember v k x).1 hrest with ⟨hg, ht⟩ | ⟨b, hg, ht⟩
    · rcases storeMember_done v k x hm with ⟨hk, hv⟩ | ⟨hk, hx, hv⟩ | ⟨hk, b, hx, hv⟩
      · left; exact ⟨by simp [givenValue, hg, hk], by rw [ht, hv]⟩
      · left; exact ⟨by simp [givenValue, hg, hk, hx], by rw [ht, hv]⟩
      · right; exact ⟨b, by simp [givenValue, hg, hk, hx], by rw [ht, hv]⟩
    · right; exact ⟨b, by simp [givenValue, hg], ht⟩

theorem Decode_merged (body : ReqBody) (r : ToDo) (h : (Decode body r).2 = false) :
    (Decode body r).1.Title = mergedTitle body r.Title ∧
    (Decode body r).1.Done = mergedDone body r.Done ∧
    (givenValue "title" (members body) = none ∨
      ∃ s, givenValue "title" (members body) = some (.str s)) ∧
    (givenValue "done" (members body) = none ∨
      ∃ b, givenValue "done" (members body) = some (.bool b)) := by
  cases body with
  | malformed => simp [Decode] at h
  | nonObject => simp [Decode] at h
  | null => simp [Decode, mergedTitle, mergedDone, members, givenValue]
  | object fields =>
    simp only [Decode] at h ⊢
    refine ⟨?_, ?_, ?_, ?_⟩
    · rcases storeObject_title fields r h with ⟨hg, ht⟩ | ⟨s, hg, ht⟩
      · simp [mergedTitle, members, hg, ht]
      · simp [mergedTitle, members, hg, ht]
    · rcases storeObject_done fields r h with ⟨hg, ht⟩ | ⟨b, hg, ht⟩
      · simp [mergedDone, members, hg, ht]
      · simp [mergedDone, members, hg, ht]
    · rcases storeObject_title fields r h with ⟨hg, _⟩ | ⟨s, hg, _⟩
      · left; exact hg
      · right; exact ⟨s, hg⟩
    · rcases storeObject_done fields r h with ⟨hg, _⟩ | ⟨b, hg, _⟩
      · left; exact hg
      · right; exact ⟨b, hg⟩

theorem rangeFind_set_self (id : Int) (c : List ToDo) (i : Nat) (cur : ToDo)
    (h : rangeFind id c = some (i, cur)) : c.set i cur = c := by
  obtain ⟨pre, post, hc, hlen, _, _⟩ := rangeFind_some id c i cur h
  rw [hc, ← hlen, set_split]

theorem rangeFind_set_ids (id : Int) (c : List ToDo) (i : Nat) (cur upd : ToDo)
    (h : rangeFind id c = some (i, cur)) (hid : upd.ID = id) :
    (c.set i upd).map ToDo.ID = c.map ToDo.ID := by
  obtain ⟨pre, post, hc, hlen, hcur, _⟩ := rangeFind_some id c i cur h
  rw [hc, ← hlen, set_split]
  simp [hid, hcur]

/-! ## Claims -/

/-- C1. CreateTodo: for every collection `c` and every body that decodes
without error, `POST /todos` answers 201 with the record whose id is
`length c + 1` and whose title and done are those decoded from the body (the
value the body gives the field, the zero value when it gives none; the id
decoded from the body is discarded), and the next collection is `c` with that
record appended: one longer, every earlier position unchanged.  Both
variants. -/
theorem create_appends_record (c : List ToDo) (body : ReqBody)
    (hbody : (Decode body zeroToDo).2 = false) :
    Stdlib.serve (.create body) c =
      (⟨201, .todo ⟨(c.length : Int) + 1, mergedTitle body "", mergedDone body false⟩⟩,
        c ++ [⟨(c.length : Int) + 1, mergedTitle body "", mergedDone body false⟩]) ∧
    Fiber.serve (.create body) c = Stdlib.serve (.create body) c ∧
    (Stdlib.serve (.create body) c).2.length = c.length + 1 ∧
    ∀ k, k < c.length → List.get? (Stdlib.serve (.create body) c).2 k = List.get? c k := by
  obtain ⟨ht, hd, _, _⟩ := Decode_merged body zeroToDo hbody
  have hs : Stdlib.serve (.create body) c =
      (⟨201, .todo ⟨(c.length : Int) + 1, mergedTitle body "", mergedDone body false⟩⟩,
        c ++ [⟨(c.length : Int) + 1, mergedTitle body "", mergedDone body false⟩]) := by
    rw [(serve_create_ok body c hbody).1, ht, hd]
    rfl
  have hf : Fiber.serve (.create body) c = Stdlib.serve (.create body) c := by
    rw [(serve_create_ok body c hbody).1, (serve_create_ok body c hbody).2]
  refine ⟨hs, hf, ?_, ?_⟩
  · rw [hs]; simp
  · intro k hk
    rw [hs]
    simp [List.getElem?_append_left hk]

/-- Witness for C1: a body carrying id 77 and title "milk", posted to a
one-record collection. -/
theorem create_appends_record_witness :
    Stdlib.serve (.create (.object [("id", .int 77), ("title", .str "milk")]))
        [⟨1, "a", true⟩] =
      (⟨201, .todo ⟨2, "milk", false⟩⟩, [⟨1, "a", true⟩, ⟨2, "milk", false⟩]) := by
  have h := (create_appends_record [⟨1, "a", true⟩]
    (.object [("id", .int 77), ("title", .str "milk")]) (by decide)).1
  rw [h]
  decide

/-- C7. DeleteTodoByID: when the collection holds a record with id `i`,
`DELETE /todos/i` answers 204 and the next collection is the old one without
the first record whose id is `i`: the records before it and after it stay, in
order and unchanged, the length drops by one, and a one-record collection
becomes empty.  Both variants. -/
theorem delete_removes_first_match (c : List ToDo) (seg : String) (i : Int)
    (hseg : Atoi seg = some i) (hmem : ∃ x ∈ c, x.ID = i) :
    ∃ pre r post, c = pre ++ r :: post ∧ r.ID = i ∧ (∀ x ∈ pre, x.ID ≠ i) ∧
      Stdlib.serve (.delete seg) c = (⟨204, .none⟩, pre ++ post) ∧
      Fiber.serve (.delete seg) c = (⟨204, .none⟩, pre ++ post) ∧
      (pre ++ post).length + 1 = c.length ∧
      (c.length = 1 → (Stdlib.serve (.delete seg) c).2 = [] ∧
        (Fiber.serve (.delete seg) c).2 = []) := by
  obtain ⟨pre, r, post, hc, hr, hpre⟩ := exists_first i c hmem
  have hfind := rangeFind_split i pre r post hr hpre
  have hs : Stdlib.serve (.delete seg) c = (⟨204, .none⟩, pre ++ post) := by
    rw [(serve_delete_eq seg i c hseg).1, hc]
    simp [Stdlib.deleteTodoByID, hfind]
  have hf : Fiber.serve (.delete seg) c = (⟨204, .none⟩, pre ++ post) := by
    rw [(serve_delete_eq seg i c hseg).2, hc]
    simp [hfind]
  refine ⟨pre, r, post, hc, hr, hpre, hs, hf, by simp [hc]; omega, ?_⟩
  intro hlen
  have hlen2 : pre.length + post.length = 0 := by
    have := hlen
    rw [hc] at this
    simp at this
    omega
  have hp : pre = [] := List.length_eq_zero.1 (by omega)
  have hq : post = [] := List.length_eq_zero.1 (by omega)
  rw [hs, hf, hp, hq]
  simp

/-- Witness for C7: deleting id 2 from three records, the last of which also
has id 2. -/
theorem delete_removes_first_match_witness :
    ∃ pre r post, ([⟨1, "a", false⟩, ⟨2, "b", false⟩, ⟨2, "c", true⟩] : List ToDo) =
        pre ++ r :: post ∧ r.ID = 2 ∧ (∀ x ∈ pre, x.ID ≠ 2) ∧
      Stdlib.serve (.delete "2") [⟨1, "a", false⟩, ⟨2, "b", false⟩, ⟨2, "c", true⟩] =
        (⟨204, .none⟩, pre ++ post) ∧
      Fiber.serve (.delete "2") [⟨1, "a", false⟩, ⟨2, "b", false⟩, ⟨2, "c", true⟩] =
        (⟨204, .none⟩, pre ++ post) ∧
      (pre ++ post).length + 1 =
        ([⟨1, "a", false⟩, ⟨2, "b", false⟩, ⟨2, "c", true⟩] : List ToDo).length ∧
      (([⟨1, "a", false⟩, ⟨2, "b", false⟩, ⟨2, "c", true⟩] : List ToDo).length = 1 →
        (Stdlib.serve (.delete "2")
          [⟨1, "a", false⟩, ⟨2, "b", false⟩, ⟨2, "c", true⟩]).2 = [] ∧
        (Fiber.serve (.delete "2")
          [⟨1, "a", false⟩, ⟨2, "b", false⟩, ⟨2, "c", true⟩]).2 = []) :=
  delete_removes_first_match [⟨1, "a", false⟩, ⟨2, "b", false⟩, ⟨2, "c", true⟩] "2" 2
    (by decide) ⟨⟨2, "b", false⟩, by decide, rfl⟩

/-- C8. GetTodoByID: for every collection and every id `i`, `GET /todos/i`
answers 200 with the first record, in collection order, whose id is `i` when
there is one; it answers 404 exactly when no record has id `i`; the collection
is the same afterwards in either case.  Both variants. -/
theorem get_returns_first_match (c : List ToDo) (seg : String) (i : Int)
    (hseg : Atoi seg = some i) :
    ((∃ x ∈ c, x.ID = i) →
      ∃ pre r post, c = pre ++ r :: post ∧ r.ID = i ∧ (∀ x ∈ pre, x.ID ≠ i) ∧
        (Stdlib.serve (.get seg) c).1 = ⟨200, .todo r⟩ ∧
        (Fiber.serve (.get seg) c).1 = ⟨200, .todo r⟩) ∧
    ((Stdlib.serve (.get seg) c).1.status = 404 ↔ ∀ x ∈ c, x.ID ≠ i) ∧
    ((Fiber.serve (.get seg) c).1.status = 404 ↔ ∀ x ∈ c, x.ID ≠ i) ∧
    (Stdlib.serve (.get seg) c).2 = c ∧ (Fiber.serve (.get seg) c).2 = c := by
  rw [(serve_get_eq seg i c hseg).1, (serve_get_eq seg i c hseg).2]
  refine ⟨?_, ?_, ?_, ?_, ?_⟩
  · intro hmem
    obtain ⟨pre, r, post, hc, hr, hpre⟩ := exists_first i c hmem
    have hfind := rangeFind_split i pre r post hr hpre
    refine ⟨pre, r, post, hc, hr, hpre, ?_, ?_⟩
    · rw [hc]; simp [Stdlib.getTodoByID, hfind]
    · rw [hc]; simp [hfind]
  · rw [← rangeFind_eq_none]
    cases hf : rangeFind i c with
    | none => simp [Stdlib.getTodoByID, hf, Stdlib.httpError]
    | some p => simp [Stdlib.getTodoByID, hf]
  · rw [← rangeFind_eq_none]
    cases hf : rangeFind i c with
    | none => simp [Fiber.jsonError]
    | some p => simp
  · cases hf : rangeFind i c <;> simp [Stdlib.getTodoByID, hf]
  · cases hf : rangeFind i c <;> simp

/-- Witness for C8: id 2 is held twice and the first holder is returned. -/
theorem get_returns_first_match_witness :
    (∃ pre r post, ([⟨1, "a", false⟩, ⟨2, "b", false⟩, ⟨2, "c", true⟩] : List ToDo) =
        pre ++ r :: post ∧ r.ID = 2 ∧ (∀ x ∈ pre, x.ID ≠ 2) ∧
      (Stdlib.serve (.get "2") [⟨1, "a", false⟩, ⟨2, "b", false⟩, ⟨2, "c", true⟩]).1 =
        ⟨200, .todo r⟩ ∧
      (Fiber.serve (.get "2") [⟨1, "a", false⟩, ⟨2, "b", false⟩, ⟨2, "c", true⟩]).1 =
        ⟨200, .todo r⟩) ∧
    Stdlib.serve (.get "2") [⟨1, "a", false⟩, ⟨2, "b", false⟩, ⟨2, "c", true⟩] =
      (⟨200, .todo ⟨2, "b", false⟩⟩, [⟨1, "a", false⟩, ⟨2, "b", false⟩, ⟨2, "c", true⟩]) :=
  ⟨(get_returns_first_match [⟨1, "a", false⟩, ⟨2, "b", false⟩, ⟨2, "c", true⟩] "2" 2
    (by decide)).1 ⟨⟨2, "b", false⟩, by decide, rfl⟩, by decide⟩

/-- C9. Unknown id: when no record has id `i`, `GET`, `DELETE` and `PUT` on
`/todos/i` all answer 404 and leave the collection as it is; `PUT` does so for
every body, a malformed one included, because the body is only decoded once a
record has matched.  Both variants. -/
theorem unknown_id_not_found (c : List ToDo) (seg : String) (i : Int) (body : ReqBody)
    (hseg : Atoi seg = some i) (hno : ∀ x ∈ c, x.ID ≠ i) :
    Stdlib.serve (.get seg) c = (Stdlib.httpError "ToDo not found" 404, c) ∧
    Stdlib.serve (.delete seg) c = (Stdlib.httpError "ToDo not found" 404, c) ∧
    Stdlib.serve (.update seg body) c = (Stdlib.httpError "ToDo not found" 404, c) ∧
    Stdlib.serve (.update seg .malformed) c = (Stdlib.httpError "ToDo not found" 404, c) ∧
    Fiber.serve (.get seg) c = (Fiber.jsonError 404 "ToDo not found", c) ∧
    Fiber.serve (.delete seg) c = (Fiber.jsonError 404 "ToDo not found", c) ∧
    Fiber.serve (.update seg body) c = (Fiber.jsonError 404 "ToDo not found", c) ∧
    Fiber.serve (.update seg .malformed) c = (Fiber.jsonError 404 "ToDo not found", c) := by
  have hf : rangeFind i c = none := (rangeFind_eq_none i c).2 hno
  rw [(serve_get_eq seg i c hseg).1, (serve_get_eq seg i c hseg).2,
    (serve_delete_eq seg i c hseg).1, (serve_delete_eq seg i c hseg).2,
    (serve_update_eq seg i body c hseg).1, (serve_update_eq seg i body c hseg).2,
    (serve_update_eq seg i .malformed c hseg).1, (serve_update_eq seg i .malformed c hseg).2]
  simp [Stdlib.getTodoByID, Stdlib.deleteTodoByID, Stdlib.updateTodoByID, hf]

/-- Witness for C9: id 9999 on a one-record collection. -/
theorem unknown_id_not_found_witness :
    Stdlib.serve (.update "9999" .malformed) [⟨1, "a", false⟩] =
      (Stdlib.httpError "ToDo not found" 404, [⟨1, "a", false⟩]) :=
  (unknown_id_not_found [⟨1, "a", false⟩] "9999" 9999 .nonObject (by decide)
    (by decide)).2.2.2.1

/-- C3, as stated, fails.  After two creates and `DELETE /todos/1` the
collection is the single record with id 2; the next create is given id 2 as
well, and `GET /todos/2` answers with the older record, not the created one. -/
theorem get_after_create_counterexample :
    (run Stdlib.serve [.create (.object [("title", .str "a")]),
        .create (.object [("title", .str "b")]), .delete "1"] []).2 =
      [⟨2, "b", false⟩] ∧
    Stdlib.serve (.create (.object [("title", .str "c")])) [⟨2, "b", false⟩] =
      (⟨201, .todo ⟨2, "c", false⟩⟩, [⟨2, "b", false⟩, ⟨2, "c", false⟩]) ∧
    Stdlib.serve (.get "2") [⟨2, "b", false⟩, ⟨2, "c", false⟩] =
      (⟨200, .todo ⟨2, "b", false⟩⟩, [⟨2, "b", false⟩, ⟨2, "c", false⟩]) ∧
    Fiber.serve (.create (.object [("title", .str "c")])) [⟨2, "b", false⟩] =
      (⟨201, .todo ⟨2, "c", false⟩⟩, [⟨2, "b", false⟩, ⟨2, "c", false⟩]) ∧
    Fiber.serve (.get "2") [⟨2, "b", false⟩, ⟨2, "c", false⟩] =
      (⟨200, .todo ⟨2, "b", false⟩⟩, [⟨2, "b", false⟩, ⟨2, "c", false⟩]) ∧
    (⟨2, "b", false⟩ : ToDo) ≠ ⟨2, "c", false⟩ := by
  decide

/-- C3, amended.  For every collection in which no record already has id
`length + 1` and every body that decodes without error: `POST /todos` returns a
record `r`, and `GET /todos/{r.id}` issued immediately afterwards answers 200
with exactly `r` and changes nothing.  Both variants. -/
theorem get_after_create_fresh_id (c : List ToDo) (body : ReqBody) (seg : String)
    (hbody : (Decode body zeroToDo).2 = false)
    (hseg : Atoi seg = some ((c.length : Int) + 1))
    (hfresh : ∀ x ∈ c, x.ID ≠ (c.length : Int) + 1) :
    Stdlib.serve (.get seg) (Stdlib.serve (.create body) c).2 =
      (⟨200, (Stdlib.serve (.create body) c).1.body⟩, (Stdlib.serve (.create body) c).2) ∧
    Fiber.serve (.get seg) (Fiber.serve (.create body) c).2 =
      (⟨200, (Fiber.serve (.create body) c).1.body⟩, (Fiber.serve (.create body) c).2) ∧
    (Stdlib.serve (.create body) c).1 =
      ⟨201, .todo ⟨(c.length : Int) + 1, (Decode body zeroToDo).1.Title,
        (Decode body zeroToDo).1.Done⟩⟩ ∧
    (Fiber.serve (.create body) c).1 = (Stdlib.serve (.create body) c).1 := by
  have hfind := rangeFind_split ((c.length : Int) + 1) c
    ⟨(c.length : Int) + 1, (Decode body zeroToDo).1.Title, (Decode body zeroToDo).1.Done⟩ []
    rfl hfresh
  rw [(serve_create_ok body c hbody).1, (serve_create_ok body c hbody).2]
  refine ⟨?_, ?_, rfl, rfl⟩
  · rw [(serve_get_eq seg _ _ hseg).1]
    simp [Stdlib.getTodoByID, hfind]
  · rw [(serve_get_eq seg _ _ hseg).2]
    simp [hfind]

/-- Witness for C3 amended: a create on a collection holding ids 1 and 2. -/
theorem get_after_create_fresh_id_witness :
    Stdlib.serve (.get "3")
        (Stdlib.serve (.create (.object [("title", .str "c")]))
          [⟨1, "a", false⟩, ⟨2, "b", false⟩]).2 =
      (⟨200, (Stdlib.serve (.create (.object [("title", .str "c")]))
          [⟨1, "a", false⟩, ⟨2, "b", false⟩]).1.body⟩,
        (Stdlib.serve (.create (.object [("title", .str "c")]))
          [⟨1, "a", false⟩, ⟨2, "b", false⟩]).2) :=
  (get_after_create_fresh_id [⟨1, "a", false⟩, ⟨2, "b", false⟩]
    (.object [("title", .str "c")]) "3" (by decide) (by decide) (by decide)).1

/-- C4, as stated, fails.  On the collection left by two creates and
`DELETE /todos/1`, the round trip create, get, update, delete, get ends with
the final `GET /todos/2` answering 200: the delete removed the older holder of
id 2 and the created record is still there. -/
theorem round_trip_counterexample :
    (run Stdlib.serve [.create (.object [("title", .str "a")]),
        .create (.object [("title", .str "b")]), .delete "1"] []).2 =
      [⟨2, "b", false⟩] ∧
    run Stdlib.serve [.create (.object [("title", .str "c")]), .get "2",
        .update "2" (.object [("title", .str "new")]), .delete "2", .get "2"]
        [⟨2, "b", false⟩] =
      ([⟨201, .todo ⟨2, "c", false⟩⟩, ⟨200, .todo ⟨2, "b", false⟩⟩,
          ⟨200, .todo ⟨2, "new", false⟩⟩, ⟨204, .none⟩, ⟨200, .todo ⟨2, "c", false⟩⟩],
        [⟨2, "c", false⟩]) ∧
    run Fiber.serve [.create (.object [("title", .str "c")]), .get "2",
        .update "2" (.object [("title", .str "new")]), .delete "2", .get "2"]
        [⟨2, "b", false⟩] =
      ([⟨201, .todo ⟨2, "c", false⟩⟩, ⟨200, .todo ⟨2, "b", false⟩⟩,
          ⟨200, .todo ⟨2, "new", false⟩⟩, ⟨204, .none⟩, ⟨200, .todo ⟨2, "c", false⟩⟩],
        [⟨2, "c", false⟩]) := by
  decide

/-- C4, amended.  For every collection in which no record already has id
`length + 1`: `POST /todos` (201, returning id `i = length + 1`), `GET /todos/i`
(200, the created record), `PUT /todos/i` with a new title (200, the record
with that title), `DELETE /todos/i` (204), `GET /todos/i` end with the final
GET answering 404, and the collection is back to what it was.  Both variants. -/
theorem round_trip_fresh_id (c : List ToDo) (body : ReqBody) (seg title : String)
    (hbody : (Decode body zeroToDo).2 = false)
    (hseg : Atoi seg = some ((c.length : Int) + 1))
    (hfresh : ∀ x ∈ c, x.ID ≠ (c.length : Int) + 1) :
    run Stdlib.serve [.create body, .get seg, .update seg (.object [("title", .str title)]),
        .delete seg, .get seg] c =
      ([⟨201, .todo ⟨(c.length : Int) + 1, (Decode body zeroToDo).1.Title,
            (Decode body zeroToDo).1.Done⟩⟩,
          ⟨200, .todo ⟨(c.length : Int) + 1, (Decode body zeroToDo).1.Title,
            (Decode body zeroToDo).1.Done⟩⟩,
          ⟨200, .todo ⟨(c.length : Int) + 1, title, (Decode body zeroToDo).1.Done⟩⟩,
          ⟨204, .none⟩, Stdlib.httpError "ToDo not found" 404], c) ∧
    run Fiber.serve [.create body, .get seg, .update seg (.object [("title", .str title)]),
        .delete seg, .get seg] c =
      ([⟨201, .todo ⟨(c.length : Int) + 1, (Decode body zeroToDo).1.Title,
            (Decode body zeroToDo).1.Done⟩⟩,
          ⟨200, .todo ⟨(c.length : Int) + 1, (Decode body zeroToDo).1.Title,
            (Decode body zeroToDo).1.Done⟩⟩,
          ⟨200, .todo ⟨(c.length : Int) + 1, title, (Decode body zeroToDo).1.Done⟩⟩,
          ⟨204, .none⟩, Fiber.jsonError 404 "ToDo not found"], c) := by
  have hfind : ∀ r : ToDo, r.ID = (c.length : Int) + 1 →
      rangeFind ((c.length : Int) + 1) (c ++ [r]) = some (c.length, r) :=
    fun r hr => rangeFind_split _ c r [] hr hfresh
  have hnone : rangeFind ((c.length : Int) + 1) c = none :=
    (rangeFind_eq_none _ c).2 hfresh
  have hset : ∀ r r2 : ToDo, (c ++ [r]).set c.length r2 = c ++ [r2] :=
    fun r r2 => set_split c r r2 []
  have hdel : ∀ r : ToDo, (c ++ [r]).take c.length ++ (c ++ [r]).drop (c.length + 1) = c := by
    intro r
    simp
  constructor
  · simp only [run, (serve_create_ok body c hbody).1, (serve_get_eq seg _ _ hseg).1,
      (serve_update_eq seg _ _ _ hseg).1, (serve_delete_eq seg _ _ hseg).1,
      Stdlib.getTodoByID, Stdlib.updateTodoByID, Stdlib.deleteTodoByID, hfind, hnone,
      decode_title_body, hset, hdel]
  · simp only [run, (serve_create_ok body c hbody).2, (serve_get_eq seg _ _ hseg).2,
      (serve_update_eq seg _ _ _ hseg).2, (serve_delete_eq seg _ _ hseg).2,
      hfind, hnone, decode_title_body, hset, hdel]

/-- Witness for C4 amended: the round trip on a collection holding id 1. -/
theorem round_trip_fresh_id_witness :
    run Stdlib.serve [.create (.object [("title", .str "c")]), .get "2",
        .update "2" (.object [("title", .str "new")]), .delete "2", .get "2"]
        [⟨1, "a", false⟩] =
      ([⟨201, .todo ⟨2, "c", false⟩⟩, ⟨200, .todo ⟨2, "c", false⟩⟩,
          ⟨200, .todo ⟨2, "new", false⟩⟩, ⟨204, .none⟩,
          Stdlib.httpError "ToDo not found" 404], [⟨1, "a", false⟩]) :=
  (round_trip_fresh_id [⟨1, "a", false⟩] (.object [("title", .str "c")]) "2" "new"
    (by decide) (by decide) (by decide)).1

/-- C6, as stated, fails.  The body with the single member "title": null
decodes without error and has the field title, yet `PUT /todos/1` on the record
(1, "old", false) answers 200 with the title still "old": a null member stores
nothing, so the title is the previous value, not the body's value. -/
theorem update_null_member_counterexample :
    (Decode (.object [("title", .null)]) zeroToDo).2 = false ∧
    hasMember "title" (.object [("title", .null)]) = true ∧
    memberValue "title" (members (.object [("title", .null)])) = some .null ∧
    Stdlib.serve (.update "1" (.object [("title", .null)])) [⟨1, "old", false⟩] =
      (⟨200, .todo ⟨1, "old", false⟩⟩, [⟨1, "old", false⟩]) ∧
    Fiber.serve (.update "1" (.object [("title", .null)])) [⟨1, "old", false⟩] =
      (⟨200, .todo ⟨1, "old", false⟩⟩, [⟨1, "old", false⟩]) := by
  decide

/-- C6, amended.  When the collection holds a record with id `i` and the body
decodes without error, `PUT /todos/i` answers 200 with the first record whose
id is `i`, in which each of title and done is the value the body gives that
field when it gives one that is not null (the last such member if the key is
repeated), and the previous value otherwise (field absent or null); its id is
`i` whatever id the body contained; that record replaces the old one in place.
Both variants. -/
theorem update_merges_body (c : List ToDo) (seg : String) (i : Int) (body : ReqBody)
    (hseg : Atoi seg = some i) (hmem : ∃ x ∈ c, x.ID = i)
    (hbody : (Decode body zeroToDo).2 = false) :
    ∃ pre r post, c = pre ++ r :: post ∧ r.ID = i ∧ (∀ x ∈ pre, x.ID ≠ i) ∧
      Stdlib.serve (.update seg body) c =
        (⟨200, .todo ⟨i, mergedTitle body r.Title, mergedDone body r.Done⟩⟩,
          pre ++ ⟨i, mergedTitle body r.Title, mergedDone body r.Done⟩ :: post) ∧
      Fiber.serve (.update seg body) c =
        (⟨200, .todo ⟨i, mergedTitle body r.Title, mergedDone body r.Done⟩⟩,
          pre ++ ⟨i, mergedTitle body r.Title, mergedDone body r.Done⟩ :: post) ∧
      (givenValue "title" (members body) = none ∨
        ∃ s, givenValue "title" (members body) = some (.str s)) ∧
      (givenValue "done" (members body) = none ∨
        ∃ b, givenValue "done" (members body) = some (.bool b)) := by
  obtain ⟨pre, r, post, hc, hr, hpre⟩ := exists_first i c hmem
  have hfind := rangeFind_split i pre r post hr hpre
  have hflag : (Decode body r).2 = false := by rw [Decode_flag body r zeroToDo]; exact hbody
  obtain ⟨ht, hd, hgt, hgd⟩ := Decode_merged body r hflag
  have hdec : Decode body r = ((Decode body r).1, false) := by
    rw [← hflag]
  refine ⟨pre, r, post, hc, hr, hpre, ?_, ?_, hgt, hgd⟩
  · rw [(serve_update_eq seg i body c hseg).1, hc]
    simp only [Stdlib.updateTodoByID, hfind]
    rw [hdec]
    simp only [set_split, ht, hd]
  · rw [(serve_update_eq seg i body c hseg).2, hc]
    simp only [hfind]
    rw [hdec]
    simp only [set_split, ht, hd]

/-- Witness for C6 amended: the body with the single member "title": "new",
put on the record (1, "old", false), yields (1, "new", false). -/
theorem update_merges_body_witness :
    (∃ pre r post, ([⟨1, "old", false⟩] : List ToDo) = pre ++ r :: post ∧ r.ID = 1 ∧
      (∀ x ∈ pre, x.ID ≠ 1) ∧
      Stdlib.serve (.update "1" (.object [("title", .str "new")])) [⟨1, "old", false⟩] =
        (⟨200, .todo ⟨1, mergedTitle (.object [("title", .str "new")]) r.Title,
            mergedDone (.object [("title", .str "new")]) r.Done⟩⟩,
          pre ++ ⟨1, mergedTitle (.object [("title", .str "new")]) r.Title,
            mergedDone (.object [("title", .str "new")]) r.Done⟩ :: post) ∧
      Fiber.serve (.update "1" (.object [("title", .str "new")])) [⟨1, "old", false⟩] =
        (⟨200, .todo ⟨1, mergedTitle (.object [("title", .str "new")]) r.Title,
            mergedDone (.object [("title", .str "new")]) r.Done⟩⟩,
          pre ++ ⟨1, mergedTitle (.object [("title", .str "new")]) r.Title,
            mergedDone (.object [("title", .str "new")]) r.Done⟩ :: post) ∧
      (givenValue "title" (members (.object [("title", .str "new")])) = none ∨
        ∃ s, givenValue "title" (members (.object [("title", .str "new")])) =
          some (.str s)) ∧
      (givenValue "done" (members (.object [("title", .str "new")])) = none ∨
        ∃ b, givenValue "done" (members (.object [("title", .str "new")])) =
          some (.bool b))) ∧
    Stdlib.serve (.update "1" (.object [("title", .str "new")])) [⟨1, "old", false⟩] =
      (⟨200, .todo ⟨1, "new", false⟩⟩, [⟨1, "new", false⟩]) :=
  ⟨update_merges_body [⟨1, "old", false⟩] "1" 1 (.object [("title", .str "new")])
    (by decide) ⟨⟨1, "old", false⟩, by decide, rfl⟩ (by decide), by decide⟩

/-- C5 at a failing input.  `PUT /todos/1` with the body
"id": 7, "title": "new", "done": "yes" answers 400 (the last member is of the
wrong type), and the record (1, "old", false) has become (7, "new", false): the
members before the bad one were stored into the record itself and the handler
returned before restoring the id.  Both variants. -/
theorem update_type_error_partial_store :
    Stdlib.serve (.update "1"
        (.object [("id", .int 7), ("title", .str "new"), ("done", .str "yes")]))
        [⟨1, "old", false⟩] =
      (Stdlib.httpError "Cannot parse JSON" 400, [⟨7, "new", false⟩]) ∧
    Fiber.serve (.update "1"
        (.object [("id", .int 7), ("title", .str "new"), ("done", .str "yes")]))
        [⟨1, "old", false⟩] =
      (Fiber.jsonError 400 "cannot parse JSON", [⟨7, "new", false⟩]) := by
  decide

/-- Around C5: every request other than a `PUT` whose body is a JSON object
leaves the collection as it was whenever its status is 400 or above (standard
library variant). -/
theorem stdlib_failed_request_keeps_collection (r : Request) (c : List ToDo)
    (hr : ∀ seg fields, r ≠ .update seg (.object fields))
    (herr : 400 ≤ (Stdlib.serve r c).1.status) : (Stdlib.serve r c).2 = c := by
  cases r with
  | root => rfl
  | list => rfl
  | create body =>
    simp only [Stdlib.serve, Stdlib.todosHandler, Stdlib.createTodo] at herr ⊢
    rcases hd : Decode body zeroToDo with ⟨t, e⟩
    cases e
    · rw [hd] at herr
      simp at herr
    · simp
  | get seg =>
    cases hA : Atoi seg with
    | none => simp [Stdlib.serve, Stdlib.todoHandler, TrimPrefix_append, hA]
    | some id =>
      rw [(serve_get_eq seg id c hA).1]
      unfold Stdlib.getTodoByID
      cases rangeFind id c <;> rfl
  | delete seg =>
    cases hA : Atoi seg with
    | none => simp [Stdlib.serve, Stdlib.todoHandler, TrimPrefix_append, hA]
    | some id =>
      rw [(serve_delete_eq seg id c hA).1] at herr ⊢
      unfold Stdlib.deleteTodoByID at herr ⊢
      cases hf : rangeFind id c with
      | none => rfl
      | some p =>
        rw [hf] at herr
        simp at herr
  | update seg body =>
    cases hA : Atoi seg with
    | none => simp [Stdlib.serve, Stdlib.todoHandler, TrimPrefix_append, hA]
    | some id =>
      rw [(serve_update_eq seg id body c hA).1] at herr ⊢
      unfold Stdlib.updateTodoByID at herr ⊢
      cases hf : rangeFind id c with
      | none => rfl
      | some p =>
        obtain ⟨i, cur⟩ := p
        cases body with
        | malformed => simp [Decode, rangeFind_set_self id c i cur hf]
        | nonObject => simp [Decode, rangeFind_set_self id c i cur hf]
        | null =>
          rw [hf] at herr
          simp [Decode] at herr
        | object fields => exact absurd rfl (hr seg fields)

/-- Around C5: the same for the framework variant. -/
theorem fiber_failed_request_keeps_collection (r : Request) (c : List ToDo)
    (hr : ∀ seg fields, r ≠ .update seg (.object fields))
    (herr : 400 ≤ (Fiber.serve r c).1.status) : (Fiber.serve r c).2 = c := by
  cases r with
  | root => rfl
  | list => rfl
  | create body =>
    simp only [Fiber.serve, Fiber.postTodos] at herr ⊢
    rcases hd : Decode body zeroToDo with ⟨t, e⟩
    cases e
    · rw [hd] at herr
      simp at herr
    · simp
  | get seg =>
    rcases fiber_get_cases seg c with ⟨_, h⟩ | ⟨p, _, h⟩ | ⟨_, h⟩
    · rw [h]; rfl
    · rw [h]; exact fiber_getTodo_frame p c
    · rw [h]
  | delete seg =>
    rcases fiber_delete_cases seg c with ⟨_, h⟩ | ⟨p, _, h⟩ | ⟨_, h⟩
    · rw [h]
    · rw [h] at herr ⊢
      cases hA : Atoi p with
      | none => rw [(fiber_invalid_id p .malformed c hA).2.2]
      | some id =>
        rw [fiber_deleteTodo_eq p id c hA] at herr ⊢
        cases hf : rangeFind id c with
        | none => rfl
        | some q =>
          rw [hf] at herr
          simp at herr
    · rw [h]
  | update seg body =>
    rcases fiber_update_cases seg body c with ⟨_, h⟩ | ⟨p, _, h⟩ | ⟨_, h⟩
    · rw [h]
    · rw [h] at herr ⊢
      cases hA : Atoi p with
      | none => rw [(fiber_invalid_id p body c hA).2.1]
      | some id =>
        rw [fiber_putTodo_eq p id body c hA] at herr ⊢
        cases hf : rangeFind id c with
        | none => rfl
        | some q =>
          obtain ⟨i, cur⟩ := q
          cases body with
          | malformed => simp [Decode, rangeFind_set_self id c i cur hf]
          | nonObject => simp [Decode, rangeFind_set_self id c i cur hf]
          | null =>
            rw [hf] at herr
            simp [Decode] at herr
          | object fields => exact absurd rfl (hr seg fields)
    · rw [h]

/-- C2 at a failing input.  One create, then `PUT /todos/1` with the body
"id": 5, "title": 3: the PUT answers 400 (the title is of the wrong type) after
the id member has been stored into the record, so the only record now has id 5,
not 1.  No delete took place.  Both variants. -/
theorem create_order_broken_by_failed_update :
    run Stdlib.serve [.create (.object [("title", .str "a")]),
        .update "1" (.object [("id", .int 5), ("title", .int 3)])] [] =
      ([⟨201, .todo ⟨1, "a", false⟩⟩, Stdlib.httpError "Cannot parse JSON" 400],
        [⟨5, "a", false⟩]) ∧
    run Fiber.serve [.create (.object [("title", .str "a")]),
        .update "1" (.object [("id", .int 5), ("title", .int 3)])] [] =
      ([⟨201, .todo ⟨1, "a", false⟩⟩, Fiber.jsonError 400 "cannot parse JSON"],
        [⟨5, "a", false⟩]) := by
  decide

theorem update_ids (id : Int) (body : ReqBody) (c : List ToDo) (i : Nat) (cur : ToDo)
    (hf : rangeFind id c = some (i, cur))
    (hb : orderly (.update "" body) = true) :
    (match Decode body cur with
      | (stored, true) => c.set i stored
      | (stored, false) => c.set i { stored with ID := id }).map ToDo.ID = c.map ToDo.ID := by
  rcases hd : Decode body cur with ⟨stored, e⟩
  cases e with
  | false => simp [rangeFind_set_ids id c i cur _ hf]
  | true =>
    have hz : (Decode body zeroToDo).2 = true := by
      rw [Decode_flag body zeroToDo cur, hd]
    have hb2 : body = .malformed ∨ body = .nonObject := by
      simpa [orderly, hz] using hb
    rcases hb2 with rfl | rfl
    · simp only [Decode, Prod.mk.injEq] at hd
      rw [← hd.1]
      simp [rangeFind_set_self id c i cur hf]
    · simp only [Decode, Prod.mk.injEq] at hd
      rw [← hd.1]
      simp [rangeFind_set_self id c i cur hf]

theorem fiber_putTodo_ids (p : String) (body : ReqBody) (c : List ToDo)
    (hb : orderly (.update "" body) = true) :
    (Fiber.putTodo p body c).2.map ToDo.ID = c.map ToDo.ID := by
  cases hA : Atoi p with
  | none => rw [(fiber_invalid_id p body c hA).2.1]
  | some id =>
    rw [fiber_putTodo_eq p id body c hA]
    cases hf : rangeFind id c with
    | none => rfl
    | some q =>
      obtain ⟨i, cur⟩ := q
      have := update_ids id body c i cur hf hb
      simp only []
      rcases hd : Decode body cur with ⟨stored, e⟩
      rw [hd] at this
      cases e <;> simpa using this

theorem serve_ids (r : Request) (c : List ToDo) (hr : orderly r = true) :
    (Stdlib.serve r c).2.map ToDo.ID =
      c.map ToDo.ID ++ (if isCreate r then [(c.length : Int) + 1] else []) ∧
    (Fiber.serve r c).2.map ToDo.ID =
      c.map ToDo.ID ++ (if isCreate r then [(c.length : Int) + 1] else []) := by
  cases r with
  | root => simp [Stdlib.serve, Stdlib.helloHandler, Fiber.serve, Fiber.getRoot, isCreate]
  | list =>
    simp [Stdlib.serve, Stdlib.todosHandler, Stdlib.getTodos, Fiber.serve, Fiber.getTodos,
      isCreate]
  | create body =>
    have hb : (Decode body zeroToDo).2 = false := by simpa [orderly] using hr
    rw [(serve_create_ok body c hb).1, (serve_create_ok body c hb).2]
    simp [isCreate]
  | delete seg => simp [orderly] at hr
  | get seg =>
    constructor
    · cases hA : Atoi seg with
      | none =>
        simp [Stdlib.serve, Stdlib.todoHandler, TrimPrefix_append, hA, isCreate]
      | some id =>
        rw [(serve_get_eq seg id c hA).1]
        unfold Stdlib.getTodoByID
        cases rangeFind id c <;> simp [isCreate]
    · rcases fiber_get_cases seg c with ⟨_, h⟩ | ⟨p, _, h⟩ | ⟨_, h⟩
      · rw [h]; simp [Fiber.getTodos, isCreate]
      · rw [h, fiber_getTodo_frame p c]; simp [isCreate]
      · rw [h]; simp [isCreate]
  | update seg body =>
    have hb : orderly (.update "" body) = true := by simpa [orderly] using hr
    constructor
    · cases hA : Atoi seg with
      | none =>
        simp [Stdlib.serve, Stdlib.todoHandler, TrimPrefix_append, hA, isCreate]
      | some id =>
        rw [(serve_update_eq seg id body c hA).1]
        unfold Stdlib.updateTodoByID
        cases hf : rangeFind id c with
        | none => simp [isCreate]
        | some q =>
          obtain ⟨i, cur⟩ := q
          have := update_ids id body c i cur hf hb
          simp only [isCreate]
          rcases hd : Decode body cur with ⟨stored, e⟩
          rw [hd] at this
          cases e <;> simpa using this
    · rcases fiber_update_cases seg body c with ⟨_, h⟩ | ⟨p, _, h⟩ | ⟨_, h⟩
      · rw [h]; simp [isCreate]
      · rw [h, fiber_putTodo_ids p body c hb]; simp [isCreate]
      · rw [h]; simp [isCreate]

theorem idsUpTo_succ (n : Nat) : idsUpTo (n + 1) = idsUpTo n ++ [(n : Int) + 1] := by
  simp [idsUpTo, List.range_succ]

theorem run_ids (serve : Request → List ToDo → Response × List ToDo)
    (hstep : ∀ r c, orderly r = true → (serve r c).2.map ToDo.ID =
      c.map ToDo.ID ++ (if isCreate r then [(c.length : Int) + 1] else []))
    (rs : List Request) (c : List ToDo) (hrs : ∀ r ∈ rs, orderly r = true)
    (hc : c.map ToDo.ID = idsUpTo c.length) :
    (run serve rs c).2.map ToDo.ID = idsUpTo (c.length + rs.countP isCreate) := by
  induction rs generalizing c with
  | nil => simpa [run] using hc
  | cons r rs ih =>
    have hr : orderly r = true := hrs r (List.mem_cons_self _ _)
    have hrest : ∀ x ∈ rs, orderly x = true := fun x hx => hrs x (List.mem_cons_of_mem _ hx)
    have hs := hstep r c hr
    have hlen : (serve r c).2.length = c.length + (if isCreate r then 1 else 0) := by
      have := congrArg List.length hs
      simp only [List.length_map, List.length_append] at this
      rw [this]
      split <;> simp
    have hnext : (serve r c).2.map ToDo.ID = idsUpTo (serve r c).2.length := by
      rw [hs, hlen, hc]
      by_cases hcr : isCreate r = true
      · simp [hcr, idsUpTo_succ]
      · simp [hcr]
    have := ih (serve r c).2 hrest hnext
    simp only [run]
    rw [this, hlen, List.countP_cons]
    congr 1
    by_cases hcr : isCreate r = true
    · simp [hcr]; omega
    · simp [hcr]

/-- Around C2: in a run from the empty collection made of creates whose body
decodes, reads, and updates whose body decodes or is rejected before anything
is stored, with no delete, the ids of the final collection are 1, 2, ..., N in
order, N being the number of creates.  Both variants. -/
theorem creates_number_in_order (rs : List Request) (hrs : ∀ r ∈ rs, orderly r = true) :
    (run Stdlib.serve rs []).2.map ToDo.ID = idsUpTo (rs.countP isCreate) ∧
    (run Fiber.serve rs []).2.map ToDo.ID = idsUpTo (rs.countP isCreate) := by
  constructor
  · have := run_ids Stdlib.serve (fun r c h => (serve_ids r c h).1) rs [] hrs rfl
    simpa using this
  · have := run_ids Fiber.serve (fun r c h => (serve_ids r c h).2) rs [] hrs rfl
    simpa using this

/-! ## Claims C11 to C18 -/

theorem fiber_serve_single (seg : String) (body : ReqBody) (c : List ToDo)
    (h : singleSegment seg = true) :
    Fiber.serve (.get seg) c = Fiber.getTodo seg c ∧
    Fiber.serve (.update seg body) c = Fiber.putTodo seg body c ∧
    Fiber.serve (.delete seg) c = Fiber.deleteTodo seg c := by
  simp [Fiber.serve, routeOf_single seg h]

theorem serve_agree (r : Request) (c : List ToDo) (hseg : segmentOk r = true) :
    (Fiber.serve r c).1.status = (Stdlib.serve r c).1.status ∧
    (Fiber.serve r c).2 = (Stdlib.serve r c).2 := by
  cases r with
  | root => exact ⟨rfl, rfl⟩
  | list => exact ⟨rfl, rfl⟩
  | create body =>
    simp only [Stdlib.serve, Stdlib.todosHandler, Stdlib.createTodo, Fiber.serve,
      Fiber.postTodos]
    rcases Decode body zeroToDo with ⟨t, e⟩
    cases e <;> simp [Stdlib.httpError, Fiber.jsonError]
  | get seg =>
    have hs : singleSegment seg = true := plain_single seg hseg
    cases hA : Atoi seg with
    | none =>
      rw [(fiber_serve_single seg .malformed c hs).1, (fiber_invalid_id seg .malformed c hA).1]
      simp [Stdlib.serve, Stdlib.todoHandler, TrimPrefix_append, hA, Stdlib.httpError,
        Fiber.jsonError]
    | some id =>
      rw [(serve_get_eq seg id c hA).1, (serve_get_eq seg id c hA).2]
      unfold Stdlib.getTodoByID
      cases rangeFind id c <;> simp [Stdlib.httpError, Fiber.jsonError]
  | delete seg =>
    have hs : singleSegment seg = true := plain_single seg hseg
    cases hA : Atoi seg with
    | none =>
      rw [(fiber_serve_single seg .malformed c hs).2.2,
        (fiber_invalid_id seg .malformed c hA).2.2]
      simp [Stdlib.serve, Stdlib.todoHandler, TrimPrefix_append, hA, Stdlib.httpError,
        Fiber.jsonError]
    | some id =>
      rw [(serve_delete_eq seg id c hA).1, (serve_delete_eq seg id c hA).2]
      unfold Stdlib.deleteTodoByID
      cases rangeFind id c <;> simp [Stdlib.httpError, Fiber.jsonError]
  | update seg body =>
    have hs : singleSegment seg = true := plain_single seg hseg
    cases hA : Atoi seg with
    | none =>
      rw [(fiber_serve_single seg body c hs).2.1, (fiber_invalid_id seg body c hA).2.1]
      simp [Stdlib.serve, Stdlib.todoHandler, TrimPrefix_append, hA, Stdlib.httpError,
        Fiber.jsonError]
    | some id =>
      rw [(serve_update_eq seg id body c hA).1, (serve_update_eq seg id body c hA).2]
      unfold Stdlib.updateTodoByID
      cases rangeFind id c with
      | none => simp [Stdlib.httpError, Fiber.jsonError]
      | some q =>
        obtain ⟨i, cur⟩ := q
        simp only []
        rcases Decode body cur with ⟨stored, e⟩
        cases e <;> simp [Stdlib.httpError, Fiber.jsonError]

theorem success_segmentOk (r : Request) (c : List ToDo)
    (hok : isSuccess (Stdlib.serve r c).1.status = true) : segmentOk r = true := by
  cases r with
  | root => rfl
  | list => rfl
  | create body => rfl
  | get seg =>
    cases hA : Atoi seg with
    | none =>
      simp [Stdlib.serve, Stdlib.todoHandler, TrimPrefix_append, hA, Stdlib.httpError,
        isSuccess] at hok
    | some id => exact Atoi_plainSegment seg id hA
  | delete seg =>
    cases hA : Atoi seg with
    | none =>
      simp [Stdlib.serve, Stdlib.todoHandler, TrimPrefix_append, hA, Stdlib.httpError,
        isSuccess] at hok
    | some id => exact Atoi_plainSegment seg id hA
  | update seg body =>
    cases hA : Atoi seg with
    | none =>
      simp [Stdlib.serve, Stdlib.todoHandler, TrimPrefix_append, hA, Stdlib.httpError,
        isSuccess] at hok
    | some id => exact Atoi_plainSegment seg id hA

/-- C12 at a failing input.  One create, then `PUT /todos/1` with the body
"id": -5, "title": 3: the PUT answers 400 (the title is of the wrong type)
after the id member has been stored into the record, so the reachable
collection holds a record whose id is -5, a value the client supplied and not
a positive one.  Both variants. -/
theorem failed_update_stores_client_id :
    run Stdlib.serve [.create (.object []),
        .update "1" (.object [("id", .int (-5)), ("title", .int 3)])] [] =
      ([⟨201, .todo ⟨1, "", false⟩⟩, Stdlib.httpError "Cannot parse JSON" 400],
        [⟨-5, "", false⟩]) ∧
    run Fiber.serve [.create (.object []),
        .update "1" (.object [("id", .int (-5)), ("title", .int 3)])] [] =
      ([⟨201, .todo ⟨1, "", false⟩⟩, Fiber.jsonError 400 "cannot parse JSON"],
        [⟨-5, "", false⟩]) := by
  decide

/-- C16. ListTodos: for every collection, `GET /todos` answers 200 with exactly
the records of the collection, all of them and in collection order, the empty
collection giving the empty array, and leaves the collection unchanged.  Both
variants. -/
theorem list_returns_collection (c : List ToDo) :
    Stdlib.serve .list c = (⟨200, .todos c⟩, c) ∧
    Fiber.serve .list c = (⟨200, .todos c⟩, c) ∧
    Stdlib.serve .list [] = (⟨200, .todos []⟩, []) ∧
    Fiber.serve .list [] = (⟨200, .todos []⟩, []) := by
  refine ⟨?_, ?_, ?_, ?_⟩ <;>
    simp [Stdlib.serve, Stdlib.todosHandler, Stdlib.getTodos, Fiber.serve, Fiber.getTodos]

/-- C15, as stated, fails.  `PATCH /todos/abc` is answered by `todoHandler`
with 400 "Invalid ID", not 405: the id segment is parsed before the method is
looked at. -/
theorem method_check_after_id_counterexample :
    Stdlib.todoHandler "PATCH" "/todos/abc" .malformed [⟨1, "a", false⟩] =
      (Stdlib.httpError "Invalid ID" 400, [⟨1, "a", false⟩]) ∧
    (Stdlib.todoHandler "PATCH" "/todos/abc" .malformed [⟨1, "a", false⟩]).1.status ≠ 405 := by
  decide

/-- C15, amended (standard-library variant).  Every request to `/todos` with a
method other than GET or POST answers 405; every request to `/todos/<segment>`
with a method other than GET, PUT or DELETE answers 405 when `Atoi` accepts the
segment, and 400 "Invalid ID" when it does not, whatever the method; the
collection is unchanged in all three cases. -/
theorem method_not_allowed (method seg : String) (body : ReqBody) (c : List ToDo) :
    (method ≠ "GET" → method ≠ "POST" →
      Stdlib.todosHandler method body c = (Stdlib.httpError "Method not allowed" 405, c)) ∧
    (method ≠ "GET" → method ≠ "PUT" → method ≠ "DELETE" → (Atoi seg).isSome = true →
      Stdlib.todoHandler method ("/todos/" ++ seg) body c =
        (Stdlib.httpError "Method not allowed" 405, c)) ∧
    (Atoi seg = none →
      Stdlib.todoHandler method ("/todos/" ++ seg) body c =
        (Stdlib.httpError "Invalid ID" 400, c)) := by
  refine ⟨?_, ?_, ?_⟩
  · intro h1 h2
    simp [Stdlib.todosHandler, h1, h2]
  · intro h1 h2 h3 hA
    obtain ⟨id, hid⟩ := Option.isSome_iff_exists.1 hA
    simp [Stdlib.todoHandler, TrimPrefix_append, hid, h1, h2, h3]
  · intro hA
    simp [Stdlib.todoHandler, TrimPrefix_append, hA]

/-- Witness for C15 amended: method PATCH on `/todos` and on `/todos/7`. -/
theorem method_not_allowed_witness :
    Stdlib.todosHandler "PATCH" .malformed [⟨1, "a", false⟩] =
      (Stdlib.httpError "Method not allowed" 405, [⟨1, "a", false⟩]) ∧
    Stdlib.todoHandler "PATCH" ("/todos/" ++ "7") .malformed [⟨1, "a", false⟩] =
      (Stdlib.httpError "Method not allowed" 405, [⟨1, "a", false⟩]) :=
  ⟨(method_not_allowed "PATCH" "7" .malformed [⟨1, "a", false⟩]).1 (by decide) (by decide),
    (method_not_allowed "PATCH" "7" .malformed [⟨1, "a", false⟩]).2.1 (by decide) (by decide)
      (by decide) (by decide)⟩

/-- C17. Frame of update: whenever `PUT /todos/i` answers 200, the collection
splits at the first record `r` with id `i` and the next collection is the same
with `r` replaced in place by the returned record, whose id is `i`: the length
is the same, the id at every position is the same, and every other record,
later holders of id `i` included, is unchanged.  Both variants. -/
theorem update_frame (c : List ToDo) (seg : String) (body : ReqBody)
    (hok : (Stdlib.serve (.update seg body) c).1.status = 200) :
    ∃ i pre r post r2, Atoi seg = some i ∧ c = pre ++ r :: post ∧ r.ID = i ∧
      (∀ x ∈ pre, x.ID ≠ i) ∧ r2.ID = i ∧
      Stdlib.serve (.update seg body) c = (⟨200, .todo r2⟩, pre ++ r2 :: post) ∧
      Fiber.serve (.update seg body) c = (⟨200, .todo r2⟩, pre ++ r2 :: post) ∧
      (pre ++ r2 :: post).length = c.length ∧
      (pre ++ r2 :: post).map ToDo.ID = c.map ToDo.ID := by
  cases hA : Atoi seg with
  | none =>
    simp [Stdlib.serve, Stdlib.todoHandler, TrimPrefix_append, hA, Stdlib.httpError] at hok
  | some id =>
    rw [(serve_update_eq seg id body c hA).1] at hok ⊢
    rw [(serve_update_eq seg id body c hA).2]
    unfold Stdlib.updateTodoByID at hok ⊢
    cases hf : rangeFind id c with
    | none =>
      rw [hf] at hok
      simp [Stdlib.httpError] at hok
    | some p =>
      obtain ⟨i, cur⟩ := p
      rw [hf] at hok
      simp only [] at hok ⊢
      obtain ⟨pre, post, hc, hlen, hcur, hpre⟩ := rangeFind_some id c i cur hf
      rcases hd : Decode body cur with ⟨stored, e⟩
      rw [hd] at hok
      cases e with
      | true => simp [Stdlib.httpError] at hok
      | false =>
        refine ⟨id, pre, cur, post, { stored with ID := id }, rfl, hc, hcur, hpre, rfl, ?_, ?_,
          ?_, ?_⟩
        · simp only []
          rw [hc, ← hlen, set_split]
        · simp only []
          rw [hc, ← hlen, set_split]
        · rw [hc]; simp
        · rw [hc]; simp [hcur]

/-- Witness for C17: id 2 is held twice; the update changes the first holder
only. -/
theorem update_frame_witness :
    ∃ i pre r post r2, Atoi "2" = some i ∧
      ([⟨1, "a", false⟩, ⟨2, "b", false⟩, ⟨2, "c", true⟩] : List ToDo) = pre ++ r :: post ∧
      r.ID = i ∧ (∀ x ∈ pre, x.ID ≠ i) ∧ r2.ID = i ∧
      Stdlib.serve (.update "2" (.object [("title", .str "new"), ("id", .int 9)]))
          [⟨1, "a", false⟩, ⟨2, "b", false⟩, ⟨2, "c", true⟩] =
        (⟨200, .todo r2⟩, pre ++ r2 :: post) ∧
      Fiber.serve (.update "2" (.object [("title", .str "new"), ("id", .int 9)]))
          [⟨1, "a", false⟩, ⟨2, "b", false⟩, ⟨2, "c", true⟩] =
        (⟨200, .todo r2⟩, pre ++ r2 :: post) ∧
      (pre ++ r2 :: post).length =
        ([⟨1, "a", false⟩, ⟨2, "b", false⟩, ⟨2, "c", true⟩] : List ToDo).length ∧
      (pre ++ r2 :: post).map ToDo.ID =
        ([⟨1, "a", false⟩, ⟨2, "b", false⟩, ⟨2, "c", true⟩] : List ToDo).map ToDo.ID :=
  update_frame [⟨1, "a", false⟩, ⟨2, "b", false⟩, ⟨2, "c", true⟩] "2"
    (.object [("title", .str "new"), ("id", .int 9)]) (by decide)

theorem run_agree (rs : List Request) (c : List ToDo)
    (hseg : ∀ r ∈ rs, segmentOk r = true) :
    (run Fiber.serve rs c).1.map Response.status =
      (run Stdlib.serve rs c).1.map Response.status ∧
    (run Fiber.serve rs c).2 = (run Stdlib.serve rs c).2 := by
  induction rs generalizing c with
  | nil => exact ⟨rfl, rfl⟩
  | cons r rs ih =>
    have hr := hseg r (List.mem_cons_self _ _)
    have hrest : ∀ x ∈ rs, segmentOk x = true := fun x hx => hseg x (List.mem_cons_of_mem _ hx)
    simp only [run, List.map_cons]
    rw [(serve_agree r c hr).2, (serve_agree r c hr).1, (ih _ hrest).1, (ih _ hrest).2]
    exact ⟨rfl, rfl⟩

theorem run_success_segments (rs : List Request) (c : List ToDo)
    (hok : ∀ resp ∈ (run Stdlib.serve rs c).1, isSuccess resp.status = true) :
    ∀ r ∈ rs, segmentOk r = true := by
  induction rs generalizing c with
  | nil => simp
  | cons r rs ih =>
    simp only [run] at hok
    intro x hx
    rcases List.mem_cons.1 hx with rfl | hx
    · exact success_segmentOk x c (hok _ (List.mem_cons_self _ _))
    · exact ih _ (fun resp hr => hok resp (List.mem_cons_of_mem _ hr)) x hx

theorem countUpTo_of_ids (k : Nat) (a b : List ToDo) (h : a.map ToDo.ID = b.map ToDo.ID) :
    countUpTo k a = countUpTo k b := by
  have key : ∀ l : List ToDo,
      countUpTo k l = (l.map ToDo.ID).countP fun n => decide (n ≤ (k : Int)) := by
    intro l
    unfold countUpTo
    rw [List.countP_map]
    rfl
  rw [key a, key b, h]

theorem countUpTo_le_length (k : Nat) (l : List ToDo) : countUpTo k l ≤ l.length :=
  List.countP_le_length _

theorem countUpTo_remove (k : Nat) (pre : List ToDo) (r : ToDo) (post : List ToDo) :
    countUpTo k (pre ++ post) ≤ countUpTo k (pre ++ r :: post) := by
  unfold countUpTo
  simp only [List.countP_append, List.countP_cons]
  omega

theorem countUpTo_push (k : Nat) (l : List ToDo) (title : String) (done : Bool)
    (h : ∀ j : Nat, countUpTo j l ≤ j) :
    countUpTo k (l ++ [⟨(l.length : Int) + 1, title, done⟩]) ≤ k := by
  have hle := countUpTo_le_length k l
  have hk := h k
  unfold countUpTo at hle hk ⊢
  simp only [List.countP_append, List.countP_cons, List.countP_nil]
  by_cases hlt : (l.length : Int) + 1 ≤ (k : Int)
  · simp only [hlt, decide_True, if_true]
    omega
  · simp only [hlt, decide_False]
    simpa using hk

theorem serve_keeps_bound (r : Request) (c : List ToDo) (hinv : ∀ k : Nat, countUpTo k c ≤ k)
    (hok : isSuccess (Stdlib.serve r c).1.status = true) :
    ∀ k : Nat, countUpTo k (Stdlib.serve r c).2 ≤ k := by
  intro k
  cases r with
  | root => exact hinv k
  | list => exact hinv k
  | create body =>
    rcases hd : Decode body zeroToDo with ⟨t, e⟩
    cases e with
    | true =>
      simp [Stdlib.serve, Stdlib.todosHandler, Stdlib.createTodo, hd, Stdlib.httpError,
        isSuccess] at hok
    | false =>
      have hb : (Decode body zeroToDo).2 = false := by rw [hd]
      rw [(serve_create_ok body c hb).1]
      exact countUpTo_push k c _ _ hinv
  | get seg =>
    cases hA : Atoi seg with
    | none =>
      simpa [Stdlib.serve, Stdlib.todoHandler, TrimPrefix_append, hA] using hinv k
    | some id =>
      rw [(serve_get_eq seg id c hA).1]
      unfold Stdlib.getTodoByID
      cases rangeFind id c <;> exact hinv k
  | delete seg =>
    cases hA : Atoi seg with
    | none =>
      simpa [Stdlib.serve, Stdlib.todoHandler, TrimPrefix_append, hA] using hinv k
    | some id =>
      rw [(serve_delete_eq seg id c hA).1]
      unfold Stdlib.deleteTodoByID
      cases hf : rangeFind id c with
      | none => exact hinv k
      | some p =>
        obtain ⟨i, cur⟩ := p
        obtain ⟨pre, post, hc, hlen, _, _⟩ := rangeFind_some id c i cur hf
        simp only []
        have h1 : c.take i ++ c.drop (i + 1) = pre ++ post := by
          rw [hc, ← hlen]; exact take_drop_split pre cur post
        rw [h1]
        have h2 := countUpTo_remove k pre cur post
        have h3 := hinv k
        rw [hc] at h3
        omega
  | update seg body =>
    cases hA : Atoi seg with
    | none =>
      simpa [Stdlib.serve, Stdlib.todoHandler, TrimPrefix_append, hA] using hinv k
    | some id =>
      rw [(serve_update_eq seg id body c hA).1] at hok ⊢
      unfold Stdlib.updateTodoByID at hok ⊢
      cases hf : rangeFind id c with
      | none => exact hinv k
      | some p =>
        obtain ⟨i, cur⟩ := p
        rw [hf] at hok
        simp only [] at hok ⊢
        rcases hd : Decode body cur with ⟨stored, e⟩
        rw [hd] at hok
        cases e with
        | true => simp [Stdlib.httpError, isSuccess] at hok
        | false =>
          simp only []
          rw [countUpTo_of_ids k _ c (rangeFind_set_ids id c i cur _ hf rfl)]
          exact hinv k

theorem run_keeps_bound (rs : List Request) (c : List ToDo)
    (hinv : ∀ k : Nat, countUpTo k c ≤ k)
    (hok : ∀ resp ∈ (run Stdlib.serve rs c).1, isSuccess resp.status = true) :
    ∀ k : Nat, countUpTo k (run Stdlib.serve rs c).2 ≤ k := by
  induction rs generalizing c with
  | nil => simpa [run] using hinv
  | cons r rs ih =>
    simp only [run] at hok ⊢
    have h1 : isSuccess (Stdlib.serve r c).1.status = true :=
      hok _ (List.mem_cons_self _ _)
    exact ih _ (serve_keeps_bound r c hinv h1) fun resp hr => hok resp (List.mem_cons_of_mem _ hr)

/-- C18. Bound on duplicates: in every collection reached from the empty one
by a run in which every response is a 2xx, for every `k` the number of records
whose id is at most `k` is at most `k`; hence every id is at least 1, id 1 is
held by at most one record, the length does not exceed any bound of the ids,
and a non-empty collection has a record whose id is at least the length.  The
framework variant reaches the same collection with the same status codes. -/
theorem duplicates_bounded (rs : List Request)
    (hok : ∀ resp ∈ (run Stdlib.serve rs []).1, isSuccess resp.status = true) :
    (∀ k : Nat, countUpTo k (run Stdlib.serve rs []).2 ≤ k) ∧
    (∀ t ∈ (run Stdlib.serve rs []).2, 1 ≤ t.ID) ∧
    (run Stdlib.serve rs []).2.countP (fun t => decide (t.ID = 1)) ≤ 1 ∧
    (∀ m : Nat, (∀ t ∈ (run Stdlib.serve rs []).2, t.ID ≤ (m : Int)) →
      (run Stdlib.serve rs []).2.length ≤ m) ∧
    ((run Stdlib.serve rs []).2 ≠ [] →
      ∃ t ∈ (run Stdlib.serve rs []).2, ((run Stdlib.serve rs []).2.length : Int) ≤ t.ID) ∧
    (run Fiber.serve rs []).2 = (run Stdlib.serve rs []).2 ∧
    (run Fiber.serve rs []).1.map Response.status =
      (run Stdlib.serve rs []).1.map Response.status := by
  have hb : ∀ k : Nat, countUpTo k (run Stdlib.serve rs []).2 ≤ k :=
    run_keeps_bound rs [] (fun k => by simp [countUpTo]) hok
  have hm : ∀ m : Nat, (∀ t ∈ (run Stdlib.serve rs []).2, t.ID ≤ (m : Int)) →
      (run Stdlib.serve rs []).2.length ≤ m := by
    intro m hall
    have h1 := hb m
    have h2 : countUpTo m (run Stdlib.serve rs []).2 = (run Stdlib.serve rs []).2.length := by
      unfold countUpTo
      rw [List.countP_eq_length]
      intro t ht
      simpa using hall t ht
    omega
  have hsegs := run_success_segments rs [] hok
  refine ⟨hb, ?_, ?_, hm, ?_, (run_agree rs [] hsegs).2, (run_agree rs [] hsegs).1⟩
  · intro t ht
    have h0 := hb 0
    have h1 : countUpTo 0 (run Stdlib.serve rs []).2 = 0 := by omega
    unfold countUpTo at h1
    rw [List.countP_eq_zero] at h1
    have := h1 t ht
    simp at this
    omega
  · have h1 := hb 1
    unfold countUpTo at h1
    refine le_trans ?_ h1
    apply List.countP_mono_left
    intro t _ h
    simp at h ⊢
    omega
  · intro hne
    by_contra hcon
    push_neg at hcon
    have hpos : 0 < (run Stdlib.serve rs []).2.length := List.length_pos.2 hne
    have := hm ((run Stdlib.serve rs []).2.length - 1) (by
      intro t ht
      have := hcon t ht
      omega)
    omega

/-- Witness for C18: two creates, a delete, a create that reuses id 2, and an
update, all answered with a 2xx; two records have id at most 2 and none has
id 1. -/
theorem duplicates_bounded_witness :
    countUpTo 2 (run Stdlib.serve [.create (.object [("title", .str "a")]),
      .create (.object [("title", .str "b")]), .delete "1",
      .create (.object [("title", .str "c")]),
      .update "2" (.object [("done", .bool true)])] []).2 ≤ 2 ∧
    (run Stdlib.serve [.create (.object [("title", .str "a")]),
      .create (.object [("title", .str "b")]), .delete "1",
      .create (.object [("title", .str "c")]),
      .update "2" (.object [("done", .bool true)])] []).2.countP
        (fun t => decide (t.ID = 1)) ≤ 1 ∧
    (run Stdlib.serve [.create (.object [("title", .str "a")]),
      .create (.object [("title", .str "b")]), .delete "1",
      .create (.object [("title", .str "c")]),
      .update "2" (.object [("done", .bool true)])] []).2 =
      [⟨2, "b", true⟩, ⟨2, "c", false⟩] :=
  ⟨(duplicates_bounded [.create (.object [("title", .str "a")]),
      .create (.object [("title", .str "b")]), .delete "1",
      .create (.object [("title", .str "c")]),
      .update "2" (.object [("done", .bool true)])] (by decide)).1 2,
    (duplicates_bounded [.create (.object [("title", .str "a")]),
      .create (.object [("title", .str "b")]), .delete "1",
      .create (.object [("title", .str "c")]),
      .update "2" (.object [("done", .bool true)])] (by decide)).2.2.1,
    by decide⟩

theorem run_append (serve : Request → List ToDo → Response × List ToDo)
    (xs ys : List Request) (c : List ToDo) :
    run serve (xs ++ ys) c =
      ((run serve xs c).1 ++ (run serve ys (run serve xs c).2).1,
        (run serve ys (run serve xs c).2).2) := by
  induction xs generalizing c with
  | nil => simp [run]
  | cons x xs ih => simp [run, ih]

theorem run_creates_status (bs : List ReqBody) (c : List ToDo)
    (hbs : ∀ b ∈ bs, (Decode b zeroToDo).2 = false) :
    ∀ resp ∈ (run Stdlib.serve (bs.map Request.create) c).1, resp.status = 201 := by
  induction bs generalizing c with
  | nil => simp [run]
  | cons b bs ih =>
    have hb := hbs b (List.mem_cons_self _ _)
    have hrest : ∀ x ∈ bs, (Decode x zeroToDo).2 = false :=
      fun x hx => hbs x (List.mem_cons_of_mem _ hx)
    intro resp hresp
    simp only [List.map_cons, run, List.mem_cons] at hresp
    rcases hresp with rfl | hresp
    · rw [(serve_create_ok b c hb).1]
    · exact ih _ hrest resp hresp

theorem run_creates_ids (bs : List ReqBody) (hbs : ∀ b ∈ bs, (Decode b zeroToDo).2 = false) :
    (run Stdlib.serve (bs.map Request.create) []).2.map ToDo.ID = idsUpTo bs.length := by
  have hord : ∀ r ∈ bs.map Request.create, orderly r = true := by
    intro r hr
    obtain ⟨b, hb, rfl⟩ := List.mem_map.1 hr
    simp [orderly, hbs b hb]
  have hcount : (bs.map Request.create).countP isCreate = bs.length := by
    rw [List.countP_eq_length.2]
    · simp
    · intro r hr
      obtain ⟨b, _, rfl⟩ := List.mem_map.1 hr
      rfl
  have := run_ids Stdlib.serve (fun r c h => (serve_ids r c h).1) (bs.map Request.create) []
    hord rfl
  simpa [hcount] using this

theorem idsUpTo_eq (n : Nat) :
    idsUpTo n = (List.range n).map (fun j : Nat => (j : Int) + 1) := by
  unfold idsUpTo
  induction n with
  | zero => rfl
  | succ m ih => simpa [List.range_succ] using ih

theorem mem_idsUpTo (n k : Nat) (h1 : 1 ≤ k) (h2 : k ≤ n) : (k : Int) ∈ idsUpTo n := by
  rw [idsUpTo_eq, List.mem_map]
  refine ⟨(k - 1 : Nat), List.mem_range.2 ?_, ?_⟩
  · omega
  · show ((k - 1 : Nat) : Int) + 1 = (k : Int)
    omega

theorem idsUpTo_length (n : Nat) : (idsUpTo n).length = n := by
  rw [idsUpTo_eq, List.length_map, List.length_range]

/-- C11. Duplicate id after deletion: from the empty collection, N creates
whose bodies decode (N at least 2, all answered 201), then `DELETE /todos/k`
with `1 ≤ k < N` (204), then one more create (201): the new record is given
id N, which the record created N-th still holds; the final collection ends
with these two records, both with id N.  Both variants. -/
theorem duplicate_id_after_delete (bs : List ReqBody) (bN body : ReqBody) (k : Nat)
    (seg : String)
    (hbs : ∀ b ∈ bs, (Decode b zeroToDo).2 = false)
    (hbN : (Decode bN zeroToDo).2 = false) (hbody : (Decode body zeroToDo).2 = false)
    (hk1 : 1 ≤ k) (hk2 : k ≤ bs.length) (hseg : Atoi seg = some (k : Int)) :
    ∃ rest : List ToDo,
      rest.length + 2 = bs.length + 1 ∧
      (∀ resp ∈ (run Stdlib.serve ((bs ++ [bN]).map Request.create) []).1,
        resp.status = 201) ∧
      (run Stdlib.serve ((bs ++ [bN]).map Request.create) []).2.length = bs.length + 1 ∧
      Stdlib.serve (.delete seg) (run Stdlib.serve ((bs ++ [bN]).map Request.create) []).2 =
        (⟨204, .none⟩,
          rest ++ [⟨(bs.length : Int) + 1, mergedTitle bN "", mergedDone bN false⟩]) ∧
      Stdlib.serve (.create body)
          (rest ++ [⟨(bs.length : Int) + 1, mergedTitle bN "", mergedDone bN false⟩]) =
        (⟨201, .todo ⟨(bs.length : Int) + 1, mergedTitle body "", mergedDone body false⟩⟩,
          rest ++ [⟨(bs.length : Int) + 1, mergedTitle bN "", mergedDone bN false⟩,
            ⟨(bs.length : Int) + 1, mergedTitle body "", mergedDone body false⟩]) ∧
      (run Stdlib.serve ((bs ++ [bN]).map Request.create ++ [.delete seg, .create body])
          []).2 =
        rest ++ [⟨(bs.length : Int) + 1, mergedTitle bN "", mergedDone bN false⟩,
          ⟨(bs.length : Int) + 1, mergedTitle body "", mergedDone body false⟩] ∧
      (run Fiber.serve ((bs ++ [bN]).map Request.create ++ [.delete seg, .create body])
          []).2 =
        rest ++ [⟨(bs.length : Int) + 1, mergedTitle bN "", mergedDone bN false⟩,
          ⟨(bs.length : Int) + 1, mergedTitle body "", mergedDone body false⟩] ∧
      (run Fiber.serve ((bs ++ [bN]).map Request.create ++ [.delete seg, .create body])
          []).1.map Response.status =
        (run Stdlib.serve ((bs ++ [bN]).map Request.create ++ [.delete seg, .create body])
          []).1.map Response.status := by
  have hall : ∀ b ∈ bs ++ [bN], (Decode b zeroToDo).2 = false := by
    intro b hb
    rcases List.mem_append.1 hb with h | h
    · exact hbs b h
    · rw [List.mem_singleton.1 h]; exact hbN
  have hids0 := run_creates_ids bs hbs
  have hlen0 : (run Stdlib.serve (bs.map Request.create) []).2.length = bs.length := by
    have := congrArg List.length hids0
    rw [List.length_map, idsUpTo_length] at this
    exact this
  have htN : (Decode bN zeroToDo).1.Title = mergedTitle bN "" :=
    (Decode_merged bN zeroToDo hbN).1
  have hdN : (Decode bN zeroToDo).1.Done = mergedDone bN false :=
    (Decode_merged bN zeroToDo hbN).2.1
  have htB : (Decode body zeroToDo).1.Title = mergedTitle body "" :=
    (Decode_merged body zeroToDo hbody).1
  have hdB : (Decode body zeroToDo).1.Done = mergedDone body false :=
    (Decode_merged body zeroToDo hbody).2.1
  have hc1 : (run Stdlib.serve ((bs ++ [bN]).map Request.create) []).2 =
      (run Stdlib.serve (bs.map Request.create) []).2 ++
        [⟨(bs.length : Int) + 1, mergedTitle bN "", mergedDone bN false⟩] := by
    rw [List.map_append, run_append]
    simp only [List.map_cons, List.map_nil, run]
    rw [(serve_create_ok bN _ hbN).1, hlen0, htN, hdN]
  have hmem : ∃ x ∈ (run Stdlib.serve (bs.map Request.create) []).2, x.ID = (k : Int) := by
    have h := mem_idsUpTo bs.length k hk1 hk2
    rw [← hids0] at h
    obtain ⟨x, hx, hxk⟩ := List.mem_map.1 h
    exact ⟨x, hx, hxk⟩
  obtain ⟨pre, r, post, hc0, hr, hpre⟩ := exists_first _ _ hmem
  have hplen : pre.length + post.length + 1 = bs.length := by
    have := hlen0
    rw [hc0] at this
    simp at this
    omega
  have hdel : Stdlib.serve (.delete seg)
      (run Stdlib.serve ((bs ++ [bN]).map Request.create) []).2 =
      (⟨204, .none⟩,
        (pre ++ post) ++ [⟨(bs.length : Int) + 1, mergedTitle bN "", mergedDone bN false⟩]) := by
    rw [(serve_delete_eq seg _ _ hseg).1, hc1, hc0]
    have hfind := rangeFind_split (k : Int) pre r
      (post ++ [⟨(bs.length : Int) + 1, mergedTitle bN "", mergedDone bN false⟩]) hr hpre
    have hshape : (pre ++ r :: post) ++
        [⟨(bs.length : Int) + 1, mergedTitle bN "", mergedDone bN false⟩] =
        pre ++ r :: (post ++
          [⟨(bs.length : Int) + 1, mergedTitle bN "", mergedDone bN false⟩]) := by simp
    rw [hshape]
    unfold Stdlib.deleteTodoByID
    rw [hfind]
    simp only []
    rw [take_drop_split]
    simp
  have hcre : Stdlib.serve (.create body)
      ((pre ++ post) ++ [⟨(bs.length : Int) + 1, mergedTitle bN "", mergedDone bN false⟩]) =
      (⟨201, .todo ⟨(bs.length : Int) + 1, mergedTitle body "", mergedDone body false⟩⟩,
        (pre ++ post) ++ [⟨(bs.length : Int) + 1, mergedTitle bN "", mergedDone bN false⟩,
          ⟨(bs.length : Int) + 1, mergedTitle body "", mergedDone body false⟩]) := by
    rw [(serve_create_ok body _ hbody).1, htB, hdB]
    have hl : (((pre ++ post) ++
        [(⟨(bs.length : Int) + 1, mergedTitle bN "", mergedDone bN false⟩ : ToDo)]).length : Int)
        = (bs.length : Int) := by
      simp only [List.length_append, List.length_singleton]
      omega
    rw [hl]
    simp
  have hrun : (run Stdlib.serve
      ((bs ++ [bN]).map Request.create ++ [.delete seg, .create body]) []).2 =
      (pre ++ post) ++ [⟨(bs.length : Int) + 1, mergedTitle bN "", mergedDone bN false⟩,
        ⟨(bs.length : Int) + 1, mergedTitle body "", mergedDone body false⟩] := by
    rw [run_append]
    simp only [run]
    rw [hdel]
    simp only []
    rw [hcre]
  have hsegs : ∀ r ∈ (bs ++ [bN]).map Request.create ++ [.delete seg, .create body],
      segmentOk r = true := by
    intro r hr
    rcases List.mem_append.1 hr with h | h
    · obtain ⟨b, _, rfl⟩ := List.mem_map.1 h
      rfl
    · simp only [List.mem_cons, List.mem_singleton, List.not_mem_nil, or_false] at h
      rcases h with rfl | rfl
      · exact Atoi_plainSegment seg _ hseg
      · rfl
  refine ⟨pre ++ post, by simp; omega, run_creates_status _ _ hall, ?_, hdel, hcre, hrun, ?_,
    (run_agree _ _ hsegs).1⟩
  · rw [hc1]; simp [hlen0]
  · rw [(run_agree _ _ hsegs).2, hrun]

/-- Witness for C11: three creates, `DELETE /todos/1`, one more create; the
collection ends with two records of id 3. -/
theorem duplicate_id_after_delete_witness :
    (∃ rest : List ToDo, rest.length + 2 = 3 ∧
      (run Stdlib.serve
        ([.create (.object [("title", .str "a")]), .create (.object [("title", .str "b")]),
          .create (.object [("title", .str "c")])] ++
          [.delete "1", .create (.object [("title", .str "d")])]) []).2 =
        rest ++ [⟨3, "c", false⟩, ⟨3, "d", false⟩]) ∧
    (run Stdlib.serve
        [.create (.object [("title", .str "a")]), .create (.object [("title", .str "b")]),
          .create (.object [("title", .str "c")]), .delete "1",
          .create (.object [("title", .str "d")])] []).2 =
      [⟨2, "b", false⟩, ⟨3, "c", false⟩, ⟨3, "d", false⟩] := by
  constructor
  · obtain ⟨rest, h1, _, _, _, _, h6, _⟩ :=
      duplicate_id_after_delete
        [.object [("title", .str "a")], .object [("title", .str "b")]]
        (.object [("title", .str "c")]) (.object [("title", .str "d")]) 1 "1"
        (by decide) (by decide) (by decide) (by decide) (by decide) (by decide)
    exact ⟨rest, h1, h6⟩
  · decide

end GoPractice
